import Mathlib

/-!
# ITG3200 gyroscope driver (`src/ITG3200.cpp`)

A shallow embedding of the register-level driver.  The I2C transport
(`io_write` / `io_read` of `devices.h`) is an external collaborator and is
taken as a parameter; the constants of `ITG3200.h` are taken as a parameter
as well.  C integers are modelled as follows: `uint8_t` values are `Nat`
(reduced `% 256` where the source converts to `uint8_t`), `int8_t`,
`int16_t` and `int` values are `Int`, and the bitwise operators of C, which
work on the promoted `int` operands, are computed on the 32-bit
two's-complement bit pattern of the operands.
-/

namespace ITG3200

/-! ## C integer conversions -/

/-- Conversion of a byte to `int8_t` (two's complement reinterpretation). -/
def toInt8 (n : Nat) : Int :=
  if n % 256 < 128 then ((n % 256 : Nat) : Int) else ((n % 256 : Nat) : Int) - 256

/-- Conversion of an `int` to `uint8_t`: reduction modulo 2^8. -/
def toUInt8 (x : Int) : Nat := (x % 256).toNat

/-- Conversion of an `int` to `int16_t`: reduction modulo 2^16 into -32768..32767. -/
def toInt16 (x : Int) : Int := (x + 32768) % 65536 - 32768

/-- The 32-bit two's-complement bit pattern of an `int`. -/
def bits32 (x : Int) : Nat := (x % 4294967296).toNat

/-- Bitwise complement `~` on a 32-bit pattern. -/
def not32 (n : Nat) : Nat := 4294967295 ^^^ (n % 4294967296)

/-- Left shift `<<` of a promoted operand, on its 32-bit pattern. -/
def shl32 (n k : Nat) : Nat := (n <<< k) % 4294967296

/-! ## Binary floating point

A `double` or `float` value is modelled by the rational number it denotes, and
an arithmetic operation by the exact operation followed by rounding to nearest,
ties to even, onto the numbers with `p` significant bits (`p = 53` for `double`,
`p = 24` for `float`).  The exponent range is not modelled: the values this
driver computes stay far inside it. -/

/-- Rounding of a rational to the nearest integer, a tie going to the even one. -/
def roundHalfEven (x : ℚ) : ℤ :=
  if x - ⌊x⌋ < 1 / 2 then ⌊x⌋
  else if 1 / 2 < x - ⌊x⌋ then ⌊x⌋ + 1
  else if ⌊x⌋ % 2 = 0 then ⌊x⌋ else ⌊x⌋ + 1

/-- Rounding to nearest, ties to even, onto the binary floating-point numbers
with `p` significant bits: for `2^L <= |x| < 2^(L+1)` the result is the multiple
of `2^(L-(p-1))` nearest to `x`. -/
def roundBinary (p : ℕ) (x : ℚ) : ℚ :=
  if x = 0 then 0
  else (roundHalfEven (x / 2 ^ (Int.log 2 |x| - (p - 1))) : ℚ) * 2 ^ (Int.log 2 |x| - (p - 1))

/-- Rounding onto the `double` numbers (53 significant bits). -/
def roundDouble (x : ℚ) : ℚ := roundBinary 53 x

/-- Rounding onto the `float` numbers (24 significant bits). -/
def roundFloat (x : ℚ) : ℚ := roundBinary 24 x

/-! ## The transport and the driver object -/

/-- The external I2C transport (`io_write`, `io_read`).  Each call returns the
`int` status code of the transfer and the next transport state; `io_read`
also returns the content of the caller's buffer after the call. -/
structure Transport (σ : Type) where
  io_write : σ → List Nat → Int × σ
  io_read : σ → Nat → Int × List Nat × σ

/-- Constants of `ITG3200.h` used by the source (register addresses, field
masks and bit offsets); the header is a parameter of the embedding. -/
structure Header where
  ITG3200_WHO : Nat
  ITG3200_SMPL : Nat
  ITG3200_DLPF : Nat
  ITG3200_INT_C : Nat
  ITG3200_INT_S : Nat
  ITG3200_TMP_H : Nat
  ITG3200_GX_H : Nat
  ITG3200_PWR_M : Nat
  FS_SEL_MASK : Nat
  FS_SEL_BIT : Nat
  DLPF_CFG_MASK : Nat
  DLPF_CFG_BIT : Nat
  RAW_RDY_EN_MASK : Nat
  RAW_RDY_EN_BIT : Nat
  ITG_RDY_EN_MASK : Nat
  ITG_RDY_EN_BIT : Nat
  ACTL_MASK : Nat
  ACTL_BIT : Nat
  OPEN_MASK : Nat
  OPEN_BIT : Nat
  LATCH_INT_EN_MASK : Nat
  LATCH_INT_EN_BIT : Nat
  INT_ANYRD_2CLEAR_MASK : Nat
  INT_ANYRD_2CLEAR_BIT : Nat
  ITG_RDY_MASK : Nat
  ITG_RDY_BIT : Nat
  RAW_DATA_RDY_MASK : Nat
  RAW_DATA_RDY_BIT : Nat
  H_RESET_MASK : Nat
  H_RESET_BIT : Nat
  SLEEP_MASK : Nat
  SLEEP_BIT : Nat
  STBY_XG_MASK : Nat
  STBY_XG_BIT : Nat
  STBY_YG_MASK : Nat
  STBY_YG_BIT : Nat
  STBY_ZG_MASK : Nat
  STBY_ZG_BIT : Nat
  CLK_SEL_MASK : Nat
  CLK_SEL_BIT : Nat
  RANGE_2000_DEG_PER_SEC : Nat
  GYRO_ADDRESS : Nat

/-- The data members of the driver object: the device session, the two
transfer buffers (`uint8_t` arrays, as maps from index to byte) and the three
`int16_t` axis offsets. -/
structure Driver (σ : Type) where
  device : σ
  writeBuffer : Nat → Nat
  readBuffer : Nat → Nat
  xOffset : Int
  yOffset : Int
  zOffset : Int

/-- Assignment `buffer[i] = v` to an element of a `uint8_t` array. -/
def setAt (buffer : Nat → Nat) (i v : Nat) : Nat → Nat :=
  fun j => if j = i then v % 256 else buffer j

/-- The caller's `uint8_t` buffer after a read transfer that left `bytes` at
its start; elements the transfer did not reach keep their content. -/
def fill (buffer : Nat → Nat) (bytes : List Nat) : Nat → Nat :=
  fun j => if j < bytes.length then bytes.getD j 0 % 256 else buffer j

variable {σ : Type}

/-! ## Register transport (`read`, `write`, `read16`, `readData`) -/

/-- `int8_t ITG3200::read(uint8_t reg)`.  The status codes of the two transfers
are not looked at; the local `data` is the byte the read transfer left in the
one-byte buffer (taken as 0 when the transfer left none). -/
def read (T : Transport σ) (d : Driver σ) (reg : Nat) : Int × Driver σ :=
  let w := T.io_write d.device [reg % 256]
  let r := T.io_read w.2 1
  (toInt8 (r.2.1.getD 0 0), { d with device := r.2.2 })

/-- `void ITG3200::write(uint8_t reg, uint8_t data)`. -/
def write (T : Transport σ) (d : Driver σ) (reg data : Nat) : Driver σ :=
  let wb := setAt (setAt d.writeBuffer 0 reg) 1 data
  let w := T.io_write d.device [wb 0, wb 1]
  { d with device := w.2, writeBuffer := wb }

/-- `int16_t ITG3200::read16(uint8_t reg)`. -/
def read16 (T : Transport σ) (d : Driver σ) (reg : Nat) : Int × Driver σ :=
  let w := T.io_write d.device [reg % 256]
  let r := T.io_read w.2 2
  let rb := fill d.readBuffer r.2.1
  (toInt16 (((rb 0 <<< 8) ||| rb 1 : Nat) : Int),
    { d with device := r.2.2, readBuffer := rb })

/-- `void ITG3200::readData(void)`. -/
def readData (T : Transport σ) (H : Header) (d : Driver σ) : Driver σ :=
  let wb := setAt d.writeBuffer 0 H.ITG3200_GX_H
  let w := T.io_write d.device [wb 0]
  let r := T.io_read w.2 6
  { d with device := r.2.2, writeBuffer := wb, readBuffer := fill d.readBuffer r.2.1 }

/-- `double ITG3200::getTemperature()`: `35 + ((double)(temp + 13200)) / 280`.
The sum `temp + 13200` is an `int` and converts to `double` exactly; the
division and the addition are `double` operations. -/
def getTemperature (T : Transport σ) (H : Header) (d : Driver σ) : ℚ × Driver σ :=
  let r := read16 T d H.ITG3200_TMP_H
  let temp : Int := r.1
  (roundDouble (35 + roundDouble (((temp + 13200 : Int) : ℚ) / 280)), r.2)

/-! ## Generic bit-field helpers -/

/-- `uint8_t ITG3200::getRegisterValue(uint8_t reg, uint8_t mask, uint8_t bit)`:
`(this->read(reg) & mask) >> bit`, the `int8_t` read promoted to `int`. -/
def getRegisterValue (T : Transport σ) (d : Driver σ) (reg mask bit : Nat) :
    Nat × Driver σ :=
  let r := read T d reg
  (((bits32 r.1 &&& (mask % 256)) >>> (bit % 256)) % 256, r.2)

/-- `void ITG3200::setRegisterBitsValue(reg, mask, bit, value)`. -/
def setRegisterBitsValue (T : Transport σ) (d : Driver σ) (reg mask bit value : Nat) :
    Driver σ :=
  let r := read T d reg
  let currentValue := toUInt8 r.1
  let currentValue := (currentValue &&& not32 (shl32 (mask % 256) (bit % 256))) % 256
  let currentValue :=
    (currentValue ||| shl32 ((mask % 256) &&& (value % 256)) (bit % 256)) % 256
  write T r.2 reg currentValue

/-- `void ITG3200::setRegisterBits(uint8_t reg, uint8_t mask, uint8_t bit)`. -/
def setRegisterBits (T : Transport σ) (d : Driver σ) (reg mask bit : Nat) : Driver σ :=
  let r := read T d reg
  let currentValue := toUInt8 r.1
  let currentValue := (currentValue ||| shl32 (mask % 256) (bit % 256)) % 256
  write T r.2 reg currentValue

/-- `void ITG3200::clearRegisterBits(uint8_t reg, uint8_t mask, uint8_t bit)`. -/
def clearRegisterBits (T : Transport σ) (d : Driver σ) (reg mask bit : Nat) : Driver σ :=
  let r := read T d reg
  let currentValue := toUInt8 r.1
  let currentValue := (currentValue &&& not32 (shl32 (mask % 256) (bit % 256))) % 256
  write T r.2 reg currentValue

/-! ## Named configuration properties -/

/-- `FullScaleRange ITG3200::getFullScaleSelection(void)`, the enumeration as
its raw `uint8_t` encoding. -/
def getFullScaleSelection (T : Transport σ) (H : Header) (d : Driver σ) : Nat × Driver σ :=
  getRegisterValue T d H.ITG3200_DLPF H.FS_SEL_MASK H.FS_SEL_BIT

/-- `void ITG3200::setFullScaleSelection(FullScaleRange fullScale)`. -/
def setFullScaleSelection (T : Transport σ) (H : Header) (d : Driver σ) (fullScale : Nat) :
    Driver σ :=
  setRegisterBitsValue T d H.ITG3200_DLPF H.FS_SEL_MASK H.FS_SEL_BIT (fullScale % 256)

/-- `bool ITG3200::isRawDataReadyEnabled(void)`. -/
def isRawDataReadyEnabled (T : Transport σ) (H : Header) (d : Driver σ) : Bool × Driver σ :=
  let g := getRegisterValue T d H.ITG3200_INT_C H.RAW_RDY_EN_MASK H.RAW_RDY_EN_BIT
  (g.1 == 1, g.2)

/-- `void ITG3200::setRawDataReadyEnabled(bool enable)`. -/
def setRawDataReadyEnabled (T : Transport σ) (H : Header) (d : Driver σ) (enable : Bool) :
    Driver σ :=
  if enable = true then setRegisterBits T d H.ITG3200_INT_C H.RAW_RDY_EN_MASK H.RAW_RDY_EN_BIT
  else clearRegisterBits T d H.ITG3200_INT_C H.RAW_RDY_EN_MASK H.RAW_RDY_EN_BIT

/-- `bool ITG3200::isInterruptEnabled(void)`. -/
def isInterruptEnabled (T : Transport σ) (H : Header) (d : Driver σ) : Bool × Driver σ :=
  let g := getRegisterValue T d H.ITG3200_INT_C H.ITG_RDY_EN_MASK H.ITG_RDY_EN_BIT
  (g.1 == 1, g.2)

/-- `void ITG3200::setInterruptEnabled(bool enable)`. -/
def setInterruptEnabled (T : Transport σ) (H : Header) (d : Driver σ) (enable : Bool) :
    Driver σ :=
  if enable = true then setRegisterBits T d H.ITG3200_INT_C H.ITG_RDY_EN_MASK H.ITG_RDY_EN_BIT
  else clearRegisterBits T d H.ITG3200_INT_C H.ITG_RDY_EN_MASK H.ITG_RDY_EN_BIT

/-- `bool ITG3200::isSleepMode(void)`. -/
def isSleepMode (T : Transport σ) (H : Header) (d : Driver σ) : Bool × Driver σ :=
  let g := getRegisterValue T d H.ITG3200_PWR_M H.SLEEP_MASK H.SLEEP_BIT
  (g.1 == 1, g.2)

/-- `void ITG3200::setSleepMode(bool enable)`. -/
def setSleepMode (T : Transport σ) (H : Header) (d : Driver σ) (enable : Bool) : Driver σ :=
  if enable = true then setRegisterBits T d H.ITG3200_PWR_M H.SLEEP_MASK H.SLEEP_BIT
  else clearRegisterBits T d H.ITG3200_PWR_M H.SLEEP_MASK H.SLEEP_BIT

/-- `bool ITG3200::isStandbyModeX(void)`. -/
def isStandbyModeX (T : Transport σ) (H : Header) (d : Driver σ) : Bool × Driver σ :=
  let g := getRegisterValue T d H.ITG3200_PWR_M H.STBY_XG_MASK H.STBY_XG_BIT
  (g.1 == 1, g.2)

/-- `void ITG3200::setStandbyModeX(bool enable)`. -/
def setStandbyModeX (T : Transport σ) (H : Header) (d : Driver σ) (enable : Bool) : Driver σ :=
  if enable = true then setRegisterBits T d H.ITG3200_PWR_M H.STBY_XG_MASK H.STBY_XG_BIT
  else clearRegisterBits T d H.ITG3200_PWR_M H.STBY_XG_MASK H.STBY_XG_BIT

/-- `bool ITG3200::isStandbyModeY(void)`. -/
def isStandbyModeY (T : Transport σ) (H : Header) (d : Driver σ) : Bool × Driver σ :=
  let g := getRegisterValue T d H.ITG3200_PWR_M H.STBY_YG_MASK H.STBY_YG_BIT
  (g.1 == 1, g.2)

/-- `void ITG3200::setStandbyModeY(bool enable)`. -/
def setStandbyModeY (T : Transport σ) (H : Header) (d : Driver σ) (enable : Bool) : Driver σ :=
  if enable = true then setRegisterBits T d H.ITG3200_PWR_M H.STBY_YG_MASK H.STBY_YG_BIT
  else clearRegisterBits T d H.ITG3200_PWR_M H.STBY_YG_MASK H.STBY_YG_BIT

/-- `bool ITG3200::isStandbyModeZ(void)`. -/
def isStandbyModeZ (T : Transport σ) (H : Header) (d : Driver σ) : Bool × Driver σ :=
  let g := getRegisterValue T d H.ITG3200_PWR_M H.STBY_ZG_MASK H.STBY_ZG_BIT
  (g.1 == 1, g.2)

/-- `void ITG3200::setStandbyModeZ(bool enable)`. -/
def setStandbyModeZ (T : Transport σ) (H : Header) (d : Driver σ) (enable : Bool) : Driver σ :=
  if enable = true then setRegisterBits T d H.ITG3200_PWR_M H.STBY_ZG_MASK H.STBY_ZG_BIT
  else clearRegisterBits T d H.ITG3200_PWR_M H.STBY_ZG_MASK H.STBY_ZG_BIT

/-- `uint8_t ITG3200::whoAmI(void)`: the `int8_t` result of `read` converted to
`uint8_t`. -/
def whoAmI (T : Transport σ) (H : Header) (d : Driver σ) : Nat × Driver σ :=
  let r := read T d H.ITG3200_WHO
  (toUInt8 r.1, r.2)

/-- `uint8_t ITG3200::getSampleRateDivider(void)`. -/
def getSampleRateDivider (T : Transport σ) (H : Header) (d : Driver σ) : Nat × Driver σ :=
  let r := read T d H.ITG3200_SMPL
  (toUInt8 r.1, r.2)

/-- `void ITG3200::setSampleRateDivider(const uint8_t sampleRateDivider)`. -/
def setSampleRateDivider (T : Transport σ) (H : Header) (d : Driver σ)
    (sampleRateDivider : Nat) : Driver σ :=
  write T d H.ITG3200_SMPL (sampleRateDivider % 256)

/-- `void ITG3200::resetDevice(void)`. -/
def resetDevice (T : Transport σ) (H : Header) (d : Driver σ) : Driver σ :=
  setRegisterBits T d H.ITG3200_PWR_M H.H_RESET_MASK H.H_RESET_BIT

/-- The bus-level collaborator calls of `begin` (`devices.h`): acquiring the
device session at an address of the given width, and setting the clock rate of
a session. -/
structure Bus (σ : Type) where
  i2c_get_device : Nat → Nat → σ
  i2c_dev_set_clock_rate : σ → Nat → σ

/-- `void ITG3200::begin()`. -/
def begin (B : Bus σ) (T : Transport σ) (H : Header) (d : Driver σ) : Driver σ :=
  let d := { d with device := B.i2c_get_device H.GYRO_ADDRESS 7 }
  let d := { d with device := B.i2c_dev_set_clock_rate d.device 400000 }
  let d := resetDevice T H d
  let d := setSampleRateDivider T H d 0
  setFullScaleSelection T H d H.RANGE_2000_DEG_PER_SEC

/-! ## Offsets, sampling and calibration -/

/-- `void ITG3200::setXoffset(const int16_t xOffset)`. -/
def setXoffset (d : Driver σ) (xOffset : Int) : Driver σ :=
  { d with xOffset := toInt16 xOffset }

/-- `void ITG3200::setYoffset(const int16_t yOffset)`. -/
def setYoffset (d : Driver σ) (yOffset : Int) : Driver σ :=
  { d with yOffset := toInt16 yOffset }

/-- `void ITG3200::setZoffset(const int16_t zOffset)`. -/
def setZoffset (d : Driver σ) (zOffset : Int) : Driver σ :=
  { d with zOffset := toInt16 zOffset }

/-- `int16_t ITG3200::getXoffset()`. -/
def getXoffset (d : Driver σ) : Int := d.xOffset

/-- `int16_t ITG3200::getYoffset()`. -/
def getYoffset (d : Driver σ) : Int := d.yOffset

/-- `int16_t ITG3200::getZoffset()`. -/
def getZoffset (d : Driver σ) : Int := d.zOffset

/-- The two's-complement signed 16-bit value of a 16-bit word, as the
specification words it: words below 2^15 stand for themselves, the others for
the word minus 2^16. -/
def twosComplement16 (n : Nat) : Int :=
  if n < 32768 then (n : Int) else (n : Int) - 65536

/-- The expression `(int16_t)((readBuffer[i] << 8) | (readBuffer[i + 1]))`. -/
def word16 (buffer : Nat → Nat) (i : Nat) : Int :=
  toInt16 (((buffer i <<< 8) ||| buffer (i + 1) : Nat) : Int)

/-- `void ITG3200::getXYZ(int16_t *x, int16_t *y, int16_t *z)`: the three values
stored through the pointers, and the driver after the burst read. -/
def getXYZ (T : Transport σ) (H : Header) (d : Driver σ) : (Int × Int × Int) × Driver σ :=
  let d1 := readData T H d
  ((toInt16 (word16 d1.readBuffer 0 + d1.xOffset),
    toInt16 (word16 d1.readBuffer 2 + d1.yOffset),
    toInt16 (word16 d1.readBuffer 4 + d1.zOffset)), d1)

/-- `void ITG3200::getAngularVelocity(float *ax, float *ay, float *az)`: each
axis is `x / 14.375`, a `double` division of the `int16_t` value (converted
exactly) by the `double` constant 14.375, stored into a `float`. -/
def getAngularVelocity (T : Transport σ) (H : Header) (d : Driver σ) :
    (ℚ × ℚ × ℚ) × Driver σ :=
  let g := getXYZ T H d
  ((roundFloat (roundDouble ((g.1.1 : ℚ) / 14.375)),
    roundFloat (roundDouble ((g.1.2.1 : ℚ) / 14.375)),
    roundFloat (roundDouble ((g.1.2.2 : ℚ) / 14.375))), g.2)

/-- The `for` loop of `zeroCalibrate`: `k` further iterations, each reading one
sample and adding it to the three `int16_t` accumulators. -/
def calibrateLoop (T : Transport σ) (H : Header) :
    Nat → Int × Int × Int → Driver σ → (Int × Int × Int) × Driver σ
  | 0, acc, d => (acc, d)
  | k + 1, acc, d =>
    let g := getXYZ T H d
    calibrateLoop T H k
      (toInt16 (acc.1 + g.1.1), toInt16 (acc.2.1 + g.1.2.1), toInt16 (acc.2.2 + g.1.2.2)) g.2

/-- The offset computed for one axis at the end of `zeroCalibrate`:
`xOffset = abs(xOffsetTemp) / samples; if (xOffsetTemp > 0) xOffset = -xOffset;`
with the division carried out in `unsigned int`. -/
def axisOffset (offsetTemp : Int) (samples : Nat) : Int :=
  let offset := toInt16 ((offsetTemp.natAbs / samples : Nat) : Int)
  if offsetTemp > 0 then toInt16 (-offset) else offset

/-- `void ITG3200::zeroCalibrate(unsigned int samples, unsigned int sampleDelayMS)`.
The delay is commented out in the source.  A call with `samples = 0` divides by
zero and has no result. -/
def zeroCalibrate (T : Transport σ) (H : Header) (d : Driver σ)
    (samples sampleDelayMS : Nat) : Option (Driver σ) :=
  let n := samples % 4294967296
  let _delay := sampleDelayMS % 4294967296
  let d0 : Driver σ := { d with xOffset := 0, yOffset := 0, zOffset := 0 }
  let g := getXYZ T H d0
  let l := calibrateLoop T H n (0, 0, 0) g.2
  if n = 0 then none
  else some { l.2 with
    xOffset := axisOffset l.1.1 n
    yOffset := axisOffset l.1.2.1 n
    zOffset := axisOffset l.1.2.2 n }

/-! ## A simulated register file -/

/-- A simulated device: a register file and the device's register pointer.  A
read of a register returns the byte last written to it. -/
structure RegFile where
  regs : Nat → Nat
  ptr : Nat

/-- Storing data bytes at the register pointer, which advances after each byte. -/
def RegFile.store (f : RegFile) : List Nat → RegFile
  | [] => f
  | b :: bs =>
    RegFile.store { regs := fun a => if a = f.ptr then b else f.regs a, ptr := f.ptr + 1 } bs

/-- The register-file transport: the first byte of a write transaction sets the
register pointer and the remaining bytes are stored from there; a read
transaction returns consecutive registers from the pointer on.  Every transfer
succeeds and reports the number of bytes moved. -/
def regBus : Transport RegFile where
  io_write f payload :=
    match payload with
    | [] => (0, f)
    | r :: data => ((payload.length : Int), RegFile.store { f with ptr := r } data)
  io_read f n :=
    ((n : Int), (List.range n).map (fun i => f.regs (f.ptr + i)), { f with ptr := f.ptr + n })

/-- A driver object on a device state, with cleared transfer buffers and the
given offsets. -/
def attach (dev : σ) (ox oy oz : Int) : Driver σ :=
  { device := dev
    writeBuffer := fun _ => 0
    readBuffer := fun _ => 0
    xOffset := ox
    yOffset := oy
    zOffset := oz }

/-- A driver object on the simulated register file `regs`, all offsets zero. -/
def onRegs (regs : Nat → Nat) : Driver RegFile :=
  attach { regs := regs, ptr := 0 } 0 0 0

/-- The sample-stream transport: the device state is the list of bursts the
sensor will deliver to the following read transfers.  A write transfer (the
register address) always succeeds; a read transfer delivers the next burst, and
fails without touching the buffer when the stream is exhausted. -/
def streamBus : Transport (List (List Nat)) where
  io_write s payload := ((payload.length : Int), s)
  io_read s n :=
    match s with
    | [] => (-1, [], [])
    | b :: rest => ((n : Int), b.take n, rest)

/-- The six bytes, high byte first, with which the sensor reports the axis
values `x`, `y`, `z` (each taken modulo 2^16). -/
def burst (x y z : Int) : List Nat :=
  [(x % 65536).toNat / 256, (x % 65536).toNat % 256,
   (y % 65536).toNat / 256, (y % 65536).toNat % 256,
   (z % 65536).toNat / 256, (z % 65536).toNat % 256]

/-- The signed 16-bit value an axis has in a burst: the two's-complement value
of the big-endian word at byte positions `i`, `i + 1`. -/
def burstAxis (b : List Nat) (i : Nat) : Int :=
  twosComplement16 (b.getD i 0 % 256 * 256 + b.getD (i + 1) 0 % 256)

/-- The exact integer sum of one axis over a sequence of bursts. -/
def axisSum (bursts : List (List Nat)) (i : Nat) : Int :=
  (bursts.map (fun b => burstAxis b i)).sum

/-- A bus transaction as seen on the wire: a write transfer with its bytes, or a
read transfer with the number of bytes asked for. -/
inductive BusEvent where
  | write (payload : List Nat)
  | read (count : Nat)
  deriving DecidableEq

/-- The transport `T` with a trace: the device state is paired with the list of
the transactions issued so far, oldest first. -/
def traced (T : Transport σ) : Transport (σ × List BusEvent) where
  io_write s payload :=
    ((T.io_write s.1 payload).1, ((T.io_write s.1 payload).2, s.2 ++ [BusEvent.write payload]))
  io_read s n :=
    ((T.io_read s.1 n).1, (T.io_read s.1 n).2.1,
      ((T.io_read s.1 n).2.2, s.2 ++ [BusEvent.read n]))

/-- The bus on which the session acquired by `begin` is the simulated register
file `regs` with an empty trace; setting the clock rate leaves it as it is. -/
def regSession (regs : Nat → Nat) : Bus (RegFile × List BusEvent) where
  i2c_get_device _ _ := ({ regs := regs, ptr := 0 }, [])
  i2c_dev_set_clock_rate dev _ := dev

/-- The field update in the specification's words, on unbounded naturals: clear
the field's bits `mask << bit` in the register byte `r` (remove from `r` the
bits it shares with `mask << bit`), OR in `(value & mask) << bit`, and keep the
low eight bits. -/
def fieldUpdate (r mask bit value : Nat) : Nat :=
  ((r ^^^ (r &&& (mask <<< bit))) ||| ((value &&& mask) <<< bit)) % 256

/-- The transport `T` with its status codes rewritten, by `fw` for the write
transfers and by `fr` for the read transfers; the bytes moved and the device
states are those of `T`. -/
def reStatus (T : Transport σ) (fw fr : Int → Int) : Transport σ where
  io_write s payload := (fw (T.io_write s payload).1, (T.io_write s payload).2)
  io_read s n := (fr (T.io_read s n).1, (T.io_read s n).2)

/-- A transport on which every write transfer fails with status -1 (the address
is not acknowledged) while a read transfer reports success and delivers the
stale byte `0x5A` in each position. -/
def nackBus : Transport Unit where
  io_write s _ := (-1, s)
  io_read s n := ((n : Int), List.replicate n 0x5A, s)

/-- A transport on which every transfer fails with status -1; a failed read
transfer leaves `0xFF`, the idle level of the bus, in each byte of the buffer. -/
def deadBus : Transport Unit where
  io_write s _ := (-1, s)
  io_read s n := (-1, List.replicate n 0xFF, s)

/-- The header constants of the sensor's register map, with right-aligned field
masks: an example instance of the header parameter. -/
def sampleHeader : Header :=
  { ITG3200_WHO := 0x00, ITG3200_SMPL := 0x15, ITG3200_DLPF := 0x16, ITG3200_INT_C := 0x17
    ITG3200_INT_S := 0x1A, ITG3200_TMP_H := 0x1B, ITG3200_GX_H := 0x1D, ITG3200_PWR_M := 0x3E
    FS_SEL_MASK := 3, FS_SEL_BIT := 3, DLPF_CFG_MASK := 7, DLPF_CFG_BIT := 0
    RAW_RDY_EN_MASK := 1, RAW_RDY_EN_BIT := 0, ITG_RDY_EN_MASK := 1, ITG_RDY_EN_BIT := 2
    ACTL_MASK := 1, ACTL_BIT := 7, OPEN_MASK := 1, OPEN_BIT := 6
    LATCH_INT_EN_MASK := 1, LATCH_INT_EN_BIT := 5
    INT_ANYRD_2CLEAR_MASK := 1, INT_ANYRD_2CLEAR_BIT := 4
    ITG_RDY_MASK := 1, ITG_RDY_BIT := 2, RAW_DATA_RDY_MASK := 1, RAW_DATA_RDY_BIT := 0
    H_RESET_MASK := 1, H_RESET_BIT := 7, SLEEP_MASK := 1, SLEEP_BIT := 6
    STBY_XG_MASK := 1, STBY_XG_BIT := 5, STBY_YG_MASK := 1, STBY_YG_BIT := 4
    STBY_ZG_MASK := 1, STBY_ZG_BIT := 3, CLK_SEL_MASK := 7, CLK_SEL_BIT := 0
    RANGE_2000_DEG_PER_SEC := 3, GYRO_ADDRESS := 0x68 }

/-! ## The driver on the simulated register file -/

theorem read_regBus (d : Driver RegFile) (reg : Nat) :
    read regBus d reg =
      (toInt8 (d.device.regs (reg % 256)),
        { d with device := { regs := d.device.regs, ptr := reg % 256 + 1 } }) := by
  simp [read, regBus, RegFile.store]

theorem write_regBus_regs (d : Driver RegFile) (reg data a : Nat) :
    (write regBus d reg data).device.regs a =
      if a = reg % 256 then data % 256 else d.device.regs a := by
  simp [write, regBus, setAt, RegFile.store]

theorem toUInt8_toInt8 (n : Nat) : toUInt8 (toInt8 n) = n % 256 := by
  unfold toUInt8 toInt8
  split <;> omega

theorem testBit_mod_256 (x i : Nat) :
    (x % 256).testBit i = (decide (i < 8) && x.testBit i) := by
  have h := Nat.testBit_mod_two_pow x 8 i
  simpa using h

theorem testBit_not32 (n i : Nat) :
    (not32 n).testBit i = (decide (i < 32) && !n.testBit i) := by
  unfold not32
  have h1 : (4294967295 : Nat) = 2 ^ 32 - 1 := by norm_num
  have h2 : (4294967296 : Nat) = 2 ^ 32 := by norm_num
  rw [Nat.testBit_xor, h1, h2, Nat.testBit_two_pow_sub_one, Nat.testBit_mod_two_pow]
  by_cases h : i < 32 <;> simp [h]

theorem bits32_toInt8_mod (n : Nat) : bits32 (toInt8 n) % 256 = n % 256 := by
  unfold bits32 toInt8
  split <;> omega

theorem bits32_toInt8_and (n m : Nat) :
    bits32 (toInt8 n) &&& (m % 256) = (n % 256) &&& (m % 256) := by
  apply Nat.eq_of_testBit_eq
  intro i
  rw [Nat.testBit_and, Nat.testBit_and, testBit_mod_256 m]
  by_cases h : i < 8
  · have h1 := testBit_mod_256 (bits32 (toInt8 n)) i
    rw [bits32_toInt8_mod] at h1
    simp [h] at h1
    simp [h, h1]
  · simp [h]

theorem getRegisterValue_regBus (d : Driver RegFile) (reg mask bit : Nat) :
    (getRegisterValue regBus d reg mask bit).1 =
      ((d.device.regs (reg % 256) % 256 &&& mask % 256) >>> (bit % 256)) % 256 := by
  simp [getRegisterValue, read_regBus, bits32_toInt8_and]

theorem setRegisterBits_regs (d : Driver RegFile) (reg mask bit a : Nat) :
    (setRegisterBits regBus d reg mask bit).device.regs a =
      if a = reg % 256 then
        (d.device.regs (reg % 256) % 256 ||| shl32 (mask % 256) (bit % 256)) % 256
      else d.device.regs a := by
  simp [setRegisterBits, read_regBus, write_regBus_regs, toUInt8_toInt8]

theorem clearRegisterBits_regs (d : Driver RegFile) (reg mask bit a : Nat) :
    (clearRegisterBits regBus d reg mask bit).device.regs a =
      if a = reg % 256 then
        (d.device.regs (reg % 256) % 256 &&& not32 (shl32 (mask % 256) (bit % 256))) % 256
      else d.device.regs a := by
  simp [clearRegisterBits, read_regBus, write_regBus_regs, toUInt8_toInt8]

theorem setRegisterBitsValue_regs (d : Driver RegFile) (reg mask bit value a : Nat) :
    (setRegisterBitsValue regBus d reg mask bit value).device.regs a =
      if a = reg % 256 then
        ((d.device.regs (reg % 256) % 256 &&& not32 (shl32 (mask % 256) (bit % 256))) % 256
          ||| shl32 (mask % 256 &&& value % 256) (bit % 256)) % 256
      else d.device.regs a := by
  simp [setRegisterBitsValue, read_regBus, write_regBus_regs, toUInt8_toInt8]

theorem shl32_mod_256 (n k : Nat) : shl32 n k % 256 = (n <<< k) % 256 := by
  unfold shl32
  omega

/-- C3: `setRegisterBits` and `clearRegisterBits` leave every bit outside the
field alone.  On the simulated register file, for every register byte, every
mask and every bit offset at which the shift `mask << bit` is defined for all
masks (in particular the offsets 0..7 of an 8-bit register), the byte written
back to `reg` agrees with the byte read at every bit position that is not one
of the field's bits `(mask << bit) mod 256`, and every register other than
`reg` keeps its content. -/
theorem setRegisterBits_clearRegisterBits_frame (d : Driver RegFile) (reg mask bit : Nat)
    (hreg : reg < 256) (hr : d.device.regs reg < 256) (hmask : mask < 256) (hbit : bit < 24) :
    (∀ i, ((mask <<< bit) % 256).testBit i = false →
      ((setRegisterBits regBus d reg mask bit).device.regs reg).testBit i =
        (d.device.regs reg).testBit i) ∧
    (∀ i, ((mask <<< bit) % 256).testBit i = false →
      ((clearRegisterBits regBus d reg mask bit).device.regs reg).testBit i =
        (d.device.regs reg).testBit i) ∧
    (∀ a, a ≠ reg →
      (setRegisterBits regBus d reg mask bit).device.regs a = d.device.regs a ∧
      (clearRegisterBits regBus d reg mask bit).device.regs a = d.device.regs a) := by
  have e1 : reg % 256 = reg := Nat.mod_eq_of_lt hreg
  have e2 : d.device.regs reg % 256 = d.device.regs reg := Nat.mod_eq_of_lt hr
  have e3 : mask % 256 = mask := Nat.mod_eq_of_lt hmask
  have e4 : bit % 256 = bit := Nat.mod_eq_of_lt (by omega)
  have hlow : ∀ i, i < 8 → (shl32 mask bit).testBit i = ((mask <<< bit) % 256).testBit i := by
    intro i hi
    rw [← shl32_mod_256, testBit_mod_256]
    simp [hi]
  have hhigh : ∀ i, ¬ i < 8 → (d.device.regs reg).testBit i = false := by
    intro i hi
    have := testBit_mod_256 (d.device.regs reg) i
    rw [e2] at this
    rw [this]
    simp [hi]
  refine ⟨?_, ?_, ?_⟩
  · intro i hF
    rw [setRegisterBits_regs, e1, e2, e3, e4, if_pos rfl, testBit_mod_256, Nat.testBit_or]
    by_cases hi : i < 8
    · rw [hlow i hi, hF]
      simp [hi]
    · simp [hi, hhigh i hi]
  · intro i hF
    rw [clearRegisterBits_regs, e1, e2, e3, e4, if_pos rfl, testBit_mod_256, Nat.testBit_and,
      testBit_not32]
    by_cases hi : i < 8
    · rw [hlow i hi, hF]
      have : i < 32 := by omega
      simp [hi, this]
    · simp [hi, hhigh i hi]
  · intro a ha
    rw [setRegisterBits_regs, clearRegisterBits_regs, e1, if_neg ha, if_neg ha]
    exact ⟨rfl, rfl⟩


/-- The getter is blind to a right-aligned mask: whenever `mask < 2 ^ bit`, it
returns 0 for every register content. -/
theorem getRegisterValue_eq_zero_of_mask_lt (d : Driver RegFile) (reg mask bit : Nat)
    (h : mask % 256 < 2 ^ (bit % 256)) :
    (getRegisterValue regBus d reg mask bit).1 = 0 := by
  rw [getRegisterValue_regBus, Nat.shiftRight_eq_div_pow]
  have h1 : d.device.regs (reg % 256) % 256 &&& mask % 256 < 2 ^ (bit % 256) :=
    lt_of_le_of_lt Nat.and_le_right h
  rw [Nat.div_eq_of_lt h1]

/-- With bit offset 0 the setter and the getter agree on the field, and the
round trip returns `value & mask`. -/
theorem roundTrip_of_bit_zero (d : Driver RegFile) (reg mask value : Nat) :
    (getRegisterValue regBus (setRegisterBitsValue regBus d reg mask 0 value) reg mask 0).1 =
      value % 256 &&& mask % 256 := by
  rw [getRegisterValue_regBus, setRegisterBitsValue_regs, if_pos rfl]
  apply Nat.eq_of_testBit_eq
  intro i
  simp only [Nat.zero_mod, Nat.shiftRight_zero, shl32, Nat.shiftLeft_zero, Nat.mod_mod,
    testBit_mod_256, Nat.testBit_and, Nat.testBit_or, testBit_not32]
  have h32 : (4294967296 : Nat) = 2 ^ 32 := by norm_num
  rw [h32]
  simp only [Nat.testBit_mod_two_pow, Nat.testBit_and]
  have h8 : (256 : Nat) = 2 ^ 8 := by norm_num
  rw [h8]
  simp only [Nat.testBit_mod_two_pow]
  by_cases hi : i < 8
  · have : i < 32 := by omega
    simp [hi, this]
    cases (mask.testBit i) <;> cases (value.testBit i) <;> simp
  · simp [hi]

/-- C1: the bit-field round trip fails on the code.  With the field descriptor
`(mask, bit) = (3, 3)` passed to both operations and register byte 0,
`setRegisterBitsValue(0x16, 3, 3, 3)` writes `0x18` and `getRegisterValue(0x16, 3, 3)`
then returns 0, not `3 & 3 = 3`: the setter shifts the mask into place, the
getter applies it unshifted.  The same happens through
`setFullScaleSelection` / `getFullScaleSelection`.  Reading the mask as already
in place does not help: with `(0x18, 3)`, register byte `0x18` and value 1 the
setter changes nothing and the getter returns 3, not `1 & 0x18 = 0`. -/
theorem fieldRoundTrip_fails :
    (setRegisterBitsValue regBus (onRegs (fun _ => 0)) 0x16 3 3 3).device.regs 0x16 = 0x18 ∧
    (getRegisterValue regBus
      (setRegisterBitsValue regBus (onRegs (fun _ => 0)) 0x16 3 3 3) 0x16 3 3).1 = 0 ∧
    (3 &&& 3 : Nat) = 3 ∧
    (getFullScaleSelection regBus sampleHeader
      (setFullScaleSelection regBus sampleHeader (onRegs (fun _ => 0))
        sampleHeader.RANGE_2000_DEG_PER_SEC)).1 = 0 ∧
    (getRegisterValue regBus
      (setRegisterBitsValue regBus (onRegs (fun _ => 0x18)) 0x16 0x18 3 1) 0x16 0x18 3).1 = 3 ∧
    (1 &&& 0x18 : Nat) = 0 := by
  decide

/-- C2: the single-bit round trip fails on the code.  With the single-bit field
`(mask, bit) = (1, 6)` and register byte 0, `setRegisterBits(0x3E, 1, 6)` writes
`0x40` and `getRegisterValue(0x3E, 1, 6)` then returns 0, not 1; hence
`setSleepMode(true)` followed by `isSleepMode()` returns false, and likewise for
the standby and interrupt-enable pairs.  With the in-place mask `(0x40, 6)` the
setter and the clearer change nothing, so the getter returns the old bit: 0
after setting on byte 0, and 1 after clearing on byte `0x40`. -/
theorem singleBitRoundTrip_fails :
    (setRegisterBits regBus (onRegs (fun _ => 0)) 0x3E 1 6).device.regs 0x3E = 0x40 ∧
    (getRegisterValue regBus
      (setRegisterBits regBus (onRegs (fun _ => 0)) 0x3E 1 6) 0x3E 1 6).1 = 0 ∧
    (isSleepMode regBus sampleHeader
      (setSleepMode regBus sampleHeader (onRegs (fun _ => 0)) true)).1 = false ∧
    (isStandbyModeX regBus sampleHeader
      (setStandbyModeX regBus sampleHeader (onRegs (fun _ => 0)) true)).1 = false ∧
    (isInterruptEnabled regBus sampleHeader
      (setInterruptEnabled regBus sampleHeader (onRegs (fun _ => 0)) true)).1 = false ∧
    (getRegisterValue regBus
      (setRegisterBits regBus (onRegs (fun _ => 0)) 0x3E 0x40 6) 0x3E 0x40 6).1 = 0 ∧
    (getRegisterValue regBus
      (clearRegisterBits regBus (onRegs (fun _ => 0x40)) 0x3E 0x40 6) 0x3E 0x40 6).1 = 1 := by
  decide

/-! ## Sampling: `getXYZ` and the offsets -/

theorem shiftLeft_or_eq (a b : Nat) (hb : b < 256) : (a <<< 8) ||| b = a * 256 + b := by
  have h := @Nat.mul_add_lt_is_or 8 b (by simpa using hb) a
  rw [Nat.shiftLeft_eq, Nat.mul_comm a, ← h]

theorem toInt16_word (a b : Nat) (ha : a < 256) (hb : b < 256) :
    toInt16 (((a <<< 8) ||| b : Nat) : Int) = twosComplement16 (a * 256 + b) := by
  rw [shiftLeft_or_eq a b hb]
  unfold toInt16 twosComplement16
  split <;> omega

theorem toInt16_toInt16_add (a b : Int) : toInt16 (toInt16 a + b) = toInt16 (a + b) := by
  unfold toInt16
  omega

theorem toInt16_add_toInt16 (a b : Int) : toInt16 (a + toInt16 b) = toInt16 (a + b) := by
  unfold toInt16
  omega

theorem toInt16_of_range (a : Int) (h1 : -32768 ≤ a) (h2 : a ≤ 32767) : toInt16 a = a := by
  unfold toInt16
  omega

theorem twosComplement16_range (n : Nat) (h : n < 65536) :
    -32768 ≤ twosComplement16 n ∧ twosComplement16 n ≤ 32767 := by
  unfold twosComplement16
  split <;> omega

theorem word16_fill (rb : Nat → Nat) (b0 b1 b2 b3 b4 b5 : Nat) :
    word16 (fill rb [b0, b1, b2, b3, b4, b5]) 0 = twosComplement16 (b0 % 256 * 256 + b1 % 256) ∧
    word16 (fill rb [b0, b1, b2, b3, b4, b5]) 2 = twosComplement16 (b2 % 256 * 256 + b3 % 256) ∧
    word16 (fill rb [b0, b1, b2, b3, b4, b5]) 4 = twosComplement16 (b4 % 256 * 256 + b5 % 256) := by
  refine ⟨?_, ?_, ?_⟩ <;>
    simp [word16, fill, toInt16_word, Nat.mod_lt]

/-- The values `getXYZ` stores and the offsets it leaves, for a burst read that
delivers the six bytes `b0 .. b5`. -/
theorem getXYZ_of_burst (T : Transport σ) (H : Header) (d : Driver σ)
    (b0 b1 b2 b3 b4 b5 : Nat)
    (hb : (T.io_read (T.io_write d.device [H.ITG3200_GX_H % 256]).2 6).2.1 =
      [b0, b1, b2, b3, b4, b5]) :
    (getXYZ T H d).1 =
      (toInt16 (twosComplement16 (b0 % 256 * 256 + b1 % 256) + d.xOffset),
       toInt16 (twosComplement16 (b2 % 256 * 256 + b3 % 256) + d.yOffset),
       toInt16 (twosComplement16 (b4 % 256 * 256 + b5 % 256) + d.zOffset)) ∧
    (getXYZ T H d).2.xOffset = d.xOffset ∧
    (getXYZ T H d).2.yOffset = d.yOffset ∧
    (getXYZ T H d).2.zOffset = d.zOffset ∧
    (getXYZ T H d).2.device =
      (T.io_read (T.io_write d.device [H.ITG3200_GX_H % 256]).2 6).2.2 := by
  have hw := word16_fill d.readBuffer b0 b1 b2 b3 b4 b5
  simp only [getXYZ, readData, setAt, if_pos, hb, hw.1, hw.2.1, hw.2.2]
  simp


/-- C6: raw axis composition.  For every transport whose burst read delivers
the six bytes `b0 .. b5`, with all three offsets zero, `getXYZ` returns the
two's-complement signed 16-bit values of `b0*256+b1`, `b2*256+b3` and
`b4*256+b5`. -/
theorem getXYZ_composition (T : Transport σ) (H : Header) (d : Driver σ)
    (b0 b1 b2 b3 b4 b5 : Nat)
    (h0 : b0 < 256) (h1 : b1 < 256) (h2 : b2 < 256) (h3 : b3 < 256) (h4 : b4 < 256)
    (h5 : b5 < 256)
    (hb : (T.io_read (T.io_write d.device [H.ITG3200_GX_H % 256]).2 6).2.1 =
      [b0, b1, b2, b3, b4, b5])
    (hx : d.xOffset = 0) (hy : d.yOffset = 0) (hz : d.zOffset = 0) :
    (getXYZ T H d).1 =
      (twosComplement16 (b0 * 256 + b1), twosComplement16 (b2 * 256 + b3),
        twosComplement16 (b4 * 256 + b5)) := by
  have h := (getXYZ_of_burst T H d b0 b1 b2 b3 b4 b5 hb).1
  rw [h, hx, hy, hz, Nat.mod_eq_of_lt h0, Nat.mod_eq_of_lt h1, Nat.mod_eq_of_lt h2,
    Nat.mod_eq_of_lt h3, Nat.mod_eq_of_lt h4, Nat.mod_eq_of_lt h5]
  have r01 := twosComplement16_range (b0 * 256 + b1) (by omega)
  have r23 := twosComplement16_range (b2 * 256 + b3) (by omega)
  have r45 := twosComplement16_range (b4 * 256 + b5) (by omega)
  simp only [add_zero]
  rw [toInt16_of_range _ r01.1 r01.2, toInt16_of_range _ r23.1 r23.2,
    toInt16_of_range _ r45.1 r45.2]

theorem getXYZ_composition_witness :
    (getXYZ streamBus sampleHeader (attach [[0x01, 0x00, 0xFF, 0xFF, 0x7F, 0xFF]] 0 0 0)).1 =
      (twosComplement16 (0x01 * 256 + 0x00), twosComplement16 (0xFF * 256 + 0xFF),
        twosComplement16 (0x7F * 256 + 0xFF)) ∧
    (twosComplement16 (0x01 * 256 + 0x00), twosComplement16 (0xFF * 256 + 0xFF),
        twosComplement16 (0x7F * 256 + 0xFF)) = (256, -1, 32767) :=
  ⟨getXYZ_composition streamBus sampleHeader
      (attach [[0x01, 0x00, 0xFF, 0xFF, 0x7F, 0xFF]] 0 0 0)
      0x01 0x00 0xFF 0xFF 0x7F 0xFF (by decide) (by decide) (by decide) (by decide)
      (by decide) (by decide) rfl rfl rfl rfl, by decide⟩

/-- C7: offsets are applied to every returned sample.  After `setXoffset`,
`setYoffset`, `setZoffset` with `int16_t` values `ox`, `oy`, `oz`, the getters
return exactly these values; for every burst with composed raw axes
`(rx, ry, rz)`, `getXYZ` returns each `raw + offset` reduced modulo 2^16 into the
signed 16-bit range, which is `raw + offset` itself whenever that sum lies in the
range; `getXYZ` leaves the stored offsets unchanged; and for whatever offsets a
driver holds (those left by `zeroCalibrate` included) `getXYZ` adds them in the
same way. -/
theorem offsets_applied (T : Transport σ) (H : Header) (d : Driver σ)
    (ox oy oz : Int) (b0 b1 b2 b3 b4 b5 : Nat)
    (h0 : b0 < 256) (h1 : b1 < 256) (h2 : b2 < 256) (h3 : b3 < 256) (h4 : b4 < 256)
    (h5 : b5 < 256)
    (hox : -32768 ≤ ox ∧ ox ≤ 32767) (hoy : -32768 ≤ oy ∧ oy ≤ 32767)
    (hoz : -32768 ≤ oz ∧ oz ≤ 32767)
    (hb : (T.io_read (T.io_write d.device [H.ITG3200_GX_H % 256]).2 6).2.1 =
      [b0, b1, b2, b3, b4, b5]) :
    getXoffset (setZoffset (setYoffset (setXoffset d ox) oy) oz) = ox ∧
    getYoffset (setZoffset (setYoffset (setXoffset d ox) oy) oz) = oy ∧
    getZoffset (setZoffset (setYoffset (setXoffset d ox) oy) oz) = oz ∧
    (getXYZ T H (setZoffset (setYoffset (setXoffset d ox) oy) oz)).1 =
      (toInt16 (twosComplement16 (b0 * 256 + b1) + ox),
       toInt16 (twosComplement16 (b2 * 256 + b3) + oy),
       toInt16 (twosComplement16 (b4 * 256 + b5) + oz)) ∧
    ((-32768 ≤ twosComplement16 (b0 * 256 + b1) + ox ∧
        twosComplement16 (b0 * 256 + b1) + ox ≤ 32767) →
      (getXYZ T H (setZoffset (setYoffset (setXoffset d ox) oy) oz)).1.1 =
        twosComplement16 (b0 * 256 + b1) + ox) ∧
    ((-32768 ≤ twosComplement16 (b2 * 256 + b3) + oy ∧
        twosComplement16 (b2 * 256 + b3) + oy ≤ 32767) →
      (getXYZ T H (setZoffset (setYoffset (setXoffset d ox) oy) oz)).1.2.1 =
        twosComplement16 (b2 * 256 + b3) + oy) ∧
    ((-32768 ≤ twosComplement16 (b4 * 256 + b5) + oz ∧
        twosComplement16 (b4 * 256 + b5) + oz ≤ 32767) →
      (getXYZ T H (setZoffset (setYoffset (setXoffset d ox) oy) oz)).1.2.2 =
        twosComplement16 (b4 * 256 + b5) + oz) ∧
    getXoffset (getXYZ T H (setZoffset (setYoffset (setXoffset d ox) oy) oz)).2 = ox ∧
    getYoffset (getXYZ T H (setZoffset (setYoffset (setXoffset d ox) oy) oz)).2 = oy ∧
    getZoffset (getXYZ T H (setZoffset (setYoffset (setXoffset d ox) oy) oz)).2 = oz ∧
    (getXYZ T H d).1 =
      (toInt16 (twosComplement16 (b0 * 256 + b1) + getXoffset d),
       toInt16 (twosComplement16 (b2 * 256 + b3) + getYoffset d),
       toInt16 (twosComplement16 (b4 * 256 + b5) + getZoffset d)) := by
  have ex : toInt16 ox = ox := toInt16_of_range ox hox.1 hox.2
  have ey : toInt16 oy = oy := toInt16_of_range oy hoy.1 hoy.2
  have ez : toInt16 oz = oz := toInt16_of_range oz hoz.1 hoz.2
  have hd : (setZoffset (setYoffset (setXoffset d ox) oy) oz).device = d.device := rfl
  have g := getXYZ_of_burst T H (setZoffset (setYoffset (setXoffset d ox) oy) oz)
    b0 b1 b2 b3 b4 b5 (by rw [hd]; exact hb)
  have sx : (setZoffset (setYoffset (setXoffset d ox) oy) oz).xOffset = ox := ex
  have sy : (setZoffset (setYoffset (setXoffset d ox) oy) oz).yOffset = oy := ey
  have sz : (setZoffset (setYoffset (setXoffset d ox) oy) oz).zOffset = oz := ez
  rw [sx, sy, sz, Nat.mod_eq_of_lt h0, Nat.mod_eq_of_lt h1, Nat.mod_eq_of_lt h2,
    Nat.mod_eq_of_lt h3, Nat.mod_eq_of_lt h4, Nat.mod_eq_of_lt h5] at g
  obtain ⟨g1, g2, g3, g4, -⟩ := g
  have g0 := (getXYZ_of_burst T H d b0 b1 b2 b3 b4 b5 hb).1
  rw [Nat.mod_eq_of_lt h0, Nat.mod_eq_of_lt h1, Nat.mod_eq_of_lt h2,
    Nat.mod_eq_of_lt h3, Nat.mod_eq_of_lt h4, Nat.mod_eq_of_lt h5] at g0
  refine ⟨sx, sy, sz, g1, ?_, ?_, ?_, g2, g3, g4, g0⟩
  · intro hr
    rw [g1]
    exact toInt16_of_range _ hr.1 hr.2
  · intro hr
    rw [g1]
    exact toInt16_of_range _ hr.1 hr.2
  · intro hr
    rw [g1]
    exact toInt16_of_range _ hr.1 hr.2

theorem offsets_applied_witness :
    (getXYZ streamBus sampleHeader
      (setZoffset (setYoffset (setXoffset
        (attach [[0x01, 0x00, 0xFF, 0xFF, 0x7F, 0xFF]] 0 0 0) 5) (-3)) 1)).1 =
      (toInt16 (twosComplement16 (0x01 * 256 + 0x00) + 5),
       toInt16 (twosComplement16 (0xFF * 256 + 0xFF) + -3),
       toInt16 (twosComplement16 (0x7F * 256 + 0xFF) + 1)) ∧
    (toInt16 (twosComplement16 (0x01 * 256 + 0x00) + 5),
       toInt16 (twosComplement16 (0xFF * 256 + 0xFF) + -3),
       toInt16 (twosComplement16 (0x7F * 256 + 0xFF) + 1)) = (261, -4, -32768) :=
  ⟨(offsets_applied streamBus sampleHeader
      (attach [[0x01, 0x00, 0xFF, 0xFF, 0x7F, 0xFF]] 0 0 0) 5 (-3) 1
      0x01 0x00 0xFF 0xFF 0x7F 0xFF (by decide) (by decide) (by decide) (by decide)
      (by decide) (by decide) (by decide) (by decide) (by decide) rfl).2.2.2.1, by decide⟩


/-! ## Calibration on a sample stream -/

theorem exists_six (b : List Nat) (h : b.length = 6) :
    ∃ b0 b1 b2 b3 b4 b5, b = [b0, b1, b2, b3, b4, b5] := by
  match b, h with
  | [b0, b1, b2, b3, b4, b5], _ => exact ⟨b0, b1, b2, b3, b4, b5, rfl⟩

/-- One sample read on the sample stream. -/
theorem getXYZ_stream (H : Header) (d : Driver (List (List Nat))) (b : List Nat)
    (rest : List (List Nat)) (hb : b.length = 6) (hd : d.device = b :: rest) :
    (getXYZ streamBus H d).1 =
      (toInt16 (burstAxis b 0 + d.xOffset), toInt16 (burstAxis b 2 + d.yOffset),
        toInt16 (burstAxis b 4 + d.zOffset)) ∧
    (getXYZ streamBus H d).2.xOffset = d.xOffset ∧
    (getXYZ streamBus H d).2.yOffset = d.yOffset ∧
    (getXYZ streamBus H d).2.zOffset = d.zOffset ∧
    (getXYZ streamBus H d).2.device = rest := by
  obtain ⟨b0, b1, b2, b3, b4, b5, rfl⟩ := exists_six b hb
  have g := getXYZ_of_burst streamBus H d b0 b1 b2 b3 b4 b5 (by simp [streamBus, hd])
  refine ⟨g.1, g.2.1, g.2.2.1, g.2.2.2.1, ?_⟩
  rw [g.2.2.2.2]
  simp [streamBus, hd]

theorem toInt16_idem (a : Int) : toInt16 (toInt16 a) = toInt16 a := by
  unfold toInt16
  omega

/-- The accumulators after the calibration loop over a sample stream: each is
the exact sum of the axis, added to the initial accumulator and reduced modulo
2^16 into the `int16_t` range. -/
theorem calibrateLoop_stream (H : Header) :
    ∀ (bursts rest : List (List Nat)) (acc : Int × Int × Int) (d : Driver (List (List Nat))),
      (∀ b ∈ bursts, b.length = 6) → d.device = bursts ++ rest →
      d.xOffset = 0 → d.yOffset = 0 → d.zOffset = 0 →
      toInt16 acc.1 = acc.1 → toInt16 acc.2.1 = acc.2.1 → toInt16 acc.2.2 = acc.2.2 →
      (calibrateLoop streamBus H bursts.length acc d).1 =
        (toInt16 (acc.1 + axisSum bursts 0), toInt16 (acc.2.1 + axisSum bursts 2),
         toInt16 (acc.2.2 + axisSum bursts 4)) ∧
      (calibrateLoop streamBus H bursts.length acc d).2.device = rest
  | [], rest, acc, d, _, hd, _, _, _, h1, h2, h3 => by
    simp [calibrateLoop, axisSum, h1, h2, h3, hd]
  | b :: bs, rest, acc, d, hb, hd, hx, hy, hz, _, _, _ => by
    have g := getXYZ_stream H d b (bs ++ rest) (hb b (List.mem_cons_self _ _)) (by simpa using hd)
    obtain ⟨g1, g2, g3, g4, g5⟩ := g
    have ih := calibrateLoop_stream H bs rest
      (toInt16 (acc.1 + (getXYZ streamBus H d).1.1),
        toInt16 (acc.2.1 + (getXYZ streamBus H d).1.2.1),
        toInt16 (acc.2.2 + (getXYZ streamBus H d).1.2.2))
      (getXYZ streamBus H d).2
      (fun b' hb' => hb b' (List.mem_cons_of_mem _ hb')) g5
      (by rw [g2, hx]) (by rw [g3, hy]) (by rw [g4, hz])
      (toInt16_idem _) (toInt16_idem _) (toInt16_idem _)
    simp only [List.length_cons, calibrateLoop]
    refine ⟨?_, ih.2⟩
    rw [ih.1, g1, hx, hy, hz]
    simp only [axisSum, List.map_cons, List.sum_cons, add_zero, toInt16_toInt16_add,
      toInt16_add_toInt16, add_assoc]

/-- What `zeroCalibrate` stores, on a sample stream that delivers the discarded
burst `b0` and then the bursts `bursts`: each offset is the source's offset
formula applied to the axis sum reduced modulo 2^16. -/
theorem zeroCalibrate_stream (H : Header) (d : Driver (List (List Nat))) (b0 : List Nat)
    (bursts rest : List (List Nat)) (N delay : Nat)
    (hb0 : b0.length = 6) (hbs : ∀ b ∈ bursts, b.length = 6)
    (hd : d.device = b0 :: (bursts ++ rest))
    (hN : bursts.length = N) (h1 : 1 ≤ N) (h2 : N < 4294967296) :
    ∃ d', zeroCalibrate streamBus H d N delay = some d' ∧
      d'.xOffset = axisOffset (toInt16 (axisSum bursts 0)) N ∧
      d'.yOffset = axisOffset (toInt16 (axisSum bursts 2)) N ∧
      d'.zOffset = axisOffset (toInt16 (axisSum bursts 4)) N ∧
      d'.device = rest := by
  have hmod : N % 4294967296 = N := Nat.mod_eq_of_lt h2
  have hne : ¬ N = 0 := by omega
  have g := getXYZ_stream H { d with xOffset := 0, yOffset := 0, zOffset := 0 } b0
    (bursts ++ rest) hb0 hd
  obtain ⟨-, g2, g3, g4, g5⟩ := g
  have l := calibrateLoop_stream H bursts rest (0, 0, 0) _ hbs g5 g2 g3 g4 rfl rfl rfl
  rw [hN] at l
  simp only [zero_add] at l
  simp only [zeroCalibrate, hmod, if_neg hne]
  refine ⟨_, rfl, ?_, ?_, ?_, ?_⟩
  · simp only [l.1]
  · simp only [l.1]
  · simp only [l.1]
  · exact l.2


/-- C4: the calibration sum is not accumulated exactly.  For the discarded read
followed by the two reads `(30000, -30000, 0)` and `(10000, -10000, 5)` the exact
axis sums are `(40000, -40000, 5)` and the formula `-sign(S) * (|S| / N)` with
`N = 2` gives `(-20000, 20000, -2)`, but `zeroCalibrate(2, 0)` stores
`(12768, -12768, -2)`: the accumulators are `int16_t` and wrap at 40000. -/
theorem calibration_accumulator_wraps :
    axisSum [burst 30000 (-30000) 0, burst 10000 (-10000) 5] 0 = 40000 ∧
    axisSum [burst 30000 (-30000) 0, burst 10000 (-10000) 5] 2 = -40000 ∧
    axisSum [burst 30000 (-30000) 0, burst 10000 (-10000) 5] 4 = 5 ∧
    (zeroCalibrate streamBus sampleHeader
        (attach [burst 0 0 0, burst 30000 (-30000) 0, burst 10000 (-10000) 5] 0 0 0) 2 0).map
      (fun d => (d.xOffset, d.yOffset, d.zOffset)) = some (12768, -12768, -2) ∧
    (-(Int.sign 40000) * (((40000 : Int).natAbs / 2 : Nat) : Int),
      -(Int.sign (-40000)) * (((-40000 : Int).natAbs / 2 : Nat) : Int),
      -(Int.sign 5) * (((5 : Int).natAbs / 2 : Nat) : Int)) = (-20000, 20000, -2) := by
  decide

set_option maxRecDepth 100000 in
/-- C5: a constant bias is not removed once the 16-bit accumulator wraps.  On
the constant stream `(600, -600, 0)` with `N = 200` samples (every value within
-32767..32767), `zeroCalibrate(200, 10)` stores the offsets `(55, -55, 0)`, not
`(-600, 600, 0)`, and the following `getXYZ` returns `(655, -655, 0)`, not
`(0, 0, 0)`.  On the specification's example `(100, -50, 0)` with `N = 10`, where
the sums stay within 16 bits, the offsets are `(-100, 50, 0)` and the following
`getXYZ` returns `(0, 0, 0)`. -/
theorem constant_bias_not_removed :
    (zeroCalibrate streamBus sampleHeader
        (attach (List.replicate 202 (burst 600 (-600) 0)) 0 0 0) 200 10).map
      (fun d => (d.xOffset, d.yOffset, d.zOffset)) = some (55, -55, 0) ∧
    (zeroCalibrate streamBus sampleHeader
        (attach (List.replicate 202 (burst 600 (-600) 0)) 0 0 0) 200 10).map
      (fun d => (getXYZ streamBus sampleHeader d).1) = some (655, -655, 0) ∧
    (zeroCalibrate streamBus sampleHeader
        (attach (List.replicate 12 (burst 100 (-50) 0)) 0 0 0) 10 0).map
      (fun d => ((d.xOffset, d.yOffset, d.zOffset), (getXYZ streamBus sampleHeader d).1)) =
        some ((-100, 50, 0), (0, 0, 0)) := by
  decide

theorem axisOffset_zero (N : Nat) : axisOffset (toInt16 0) N = 0 := by
  simp [axisOffset, toInt16]

/-- C9: zero-sum calibration.  For every `N >= 1` and every stream that delivers
the discarded burst and then `N` six-byte bursts, `zeroCalibrate(N, delay)`
returns, and for each axis whose exact sum over the `N` accumulated reads is
zero it stores the offset 0, whatever the intermediate partial sums are. -/
theorem zeroSum_offset_zero (H : Header) (d : Driver (List (List Nat))) (b0 : List Nat)
    (bursts rest : List (List Nat)) (N delay : Nat)
    (hb0 : b0.length = 6) (hbs : ∀ b ∈ bursts, b.length = 6)
    (hd : d.device = b0 :: (bursts ++ rest))
    (hN : bursts.length = N) (h1 : 1 ≤ N) (h2 : N < 4294967296) :
    ∃ d', zeroCalibrate streamBus H d N delay = some d' ∧
      (axisSum bursts 0 = 0 → d'.xOffset = 0) ∧
      (axisSum bursts 2 = 0 → d'.yOffset = 0) ∧
      (axisSum bursts 4 = 0 → d'.zOffset = 0) := by
  obtain ⟨d', hz, hx, hy, hzz, -⟩ :=
    zeroCalibrate_stream H d b0 bursts rest N delay hb0 hbs hd hN h1 h2
  refine ⟨d', hz, ?_, ?_, ?_⟩
  · intro h
    rw [hx, h, axisOffset_zero]
  · intro h
    rw [hy, h, axisOffset_zero]
  · intro h
    rw [hzz, h, axisOffset_zero]

theorem zeroSum_offset_zero_witness :
    ∃ d', zeroCalibrate streamBus sampleHeader
        (attach [burst 1 2 3, burst 30000 (-5) 0, burst 30000 5 0, burst (-30000) 5 0,
          burst (-30000) (-5) 0] 9 9 9) 4 0 = some d' ∧
      d'.xOffset = 0 ∧ d'.yOffset = 0 ∧ d'.zOffset = 0 := by
  obtain ⟨d', hz, hx, hy, hzz⟩ :=
    zeroSum_offset_zero sampleHeader
      (attach [burst 1 2 3, burst 30000 (-5) 0, burst 30000 5 0, burst (-30000) 5 0,
          burst (-30000) (-5) 0] 9 9 9) (burst 1 2 3)
      [burst 30000 (-5) 0, burst 30000 5 0, burst (-30000) 5 0, burst (-30000) (-5) 0] []
      4 0 (by decide) (by decide) rfl rfl (by decide) (by decide)
  exact ⟨d', hz, hx (by decide), hy (by decide), hzz (by decide)⟩

/-! ## Rounding lemmas -/
theorem abs_roundHalfEven_sub_le (x : ℚ) : |(roundHalfEven x : ℚ) - x| ≤ 1 / 2 := by
  have h1 : (⌊x⌋ : ℚ) ≤ x := Int.floor_le x
  have h2 : x < ⌊x⌋ + 1 := Int.lt_floor_add_one x
  unfold roundHalfEven
  rw [abs_le]
  split_ifs <;> push_cast <;> constructor <;> linarith

theorem roundHalfEven_intCast (m : ℤ) : roundHalfEven (m : ℚ) = m := by
  simp [roundHalfEven]

theorem abs_roundBinary_sub_le (p : ℕ) (x : ℚ) (B : ℤ) (hx : |x| < 2 ^ B) :
    |roundBinary p x - x| ≤ 2 ^ (B - 1 - p) := by
  unfold roundBinary
  split_ifs with h0
  · subst h0
    simp only [sub_zero, abs_zero]
    positivity
  · have hpos : 0 < |x| := abs_pos.mpr h0
    have hL : Int.log 2 |x| < B := by
      have := (Int.lt_zpow_iff_log_lt (b := 2) (by norm_num) hpos (x := B)).mp (by exact_mod_cast hx)
      exact this
    set e : ℤ := Int.log 2 |x| - (p - 1) with he
    have h2 : (0 : ℚ) < 2 ^ e := by positivity
    have hr := abs_roundHalfEven_sub_le (x / 2 ^ e)
    have key : |(roundHalfEven (x / 2 ^ e) : ℚ) * 2 ^ e - x| =
        |(roundHalfEven (x / 2 ^ e) : ℚ) - x / 2 ^ e| * 2 ^ e := by
      rw [← abs_of_pos h2, ← abs_mul, abs_of_pos h2, sub_mul, div_mul_cancel₀ _ (ne_of_gt h2)]
    rw [key]
    have h3 : |(roundHalfEven (x / 2 ^ e) : ℚ) - x / 2 ^ e| * 2 ^ e ≤ 1 / 2 * 2 ^ e :=
      mul_le_mul_of_nonneg_right hr (le_of_lt h2)
    have h4 : (1 / 2 : ℚ) * 2 ^ e = 2 ^ (e - 1) := by
      rw [zpow_sub_one₀ (by norm_num : (2 : ℚ) ≠ 0)]
      ring
    have h5 : (2 : ℚ) ^ (e - 1) ≤ 2 ^ (B - 1 - p) :=
      zpow_le_zpow_right₀ (by norm_num) (by omega)
    linarith

theorem roundBinary_repr (p : ℕ) (m k : ℤ) (hm : |(m : ℚ)| < 2 ^ p) :
    roundBinary p ((m : ℚ) * 2 ^ k) = (m : ℚ) * 2 ^ k := by
  unfold roundBinary
  split_ifs with h0
  · exact h0.symm
  · have hpos : 0 < |(m : ℚ) * 2 ^ k| := abs_pos.mpr h0
    have h2k : (0 : ℚ) < 2 ^ k := by positivity
    have hlt : |(m : ℚ) * 2 ^ k| < 2 ^ ((p : ℤ) + k) := by
      rw [abs_mul, abs_of_pos h2k, zpow_add₀ (by norm_num : (2 : ℚ) ≠ 0), zpow_natCast]
      exact mul_lt_mul_of_pos_right hm h2k
    have hL : Int.log 2 |(m : ℚ) * 2 ^ k| < (p : ℤ) + k :=
      (Int.lt_zpow_iff_log_lt (b := 2) (by norm_num) hpos (x := (p : ℤ) + k)).mp
        (by exact_mod_cast hlt)
    set e : ℤ := Int.log 2 |(m : ℚ) * 2 ^ k| - (p - 1) with he
    obtain ⟨n, hn⟩ : ∃ n : ℕ, k = e + n := ⟨(k - e).toNat, by omega⟩
    have hq : (m : ℚ) * 2 ^ k / 2 ^ e = ((m * 2 ^ n : ℤ) : ℚ) := by
      rw [hn, zpow_add₀ (by norm_num : (2 : ℚ) ≠ 0), zpow_natCast]
      push_cast
      field_simp
      ring
    have hpow : (2 : ℚ) ^ k = 2 ^ e * 2 ^ n := by
      rw [← zpow_natCast, ← zpow_add₀ (by norm_num : (2 : ℚ) ≠ 0), ← hn]
    rw [hq, roundHalfEven_intCast, hpow]
    push_cast
    ring

theorem int_log_two_eq (x : ℚ) (L : ℤ) (h1 : 2 ^ L ≤ x) (h2 : x < 2 ^ (L + 1)) :
    Int.log 2 x = L := by
  have hpos : 0 < x := lt_of_lt_of_le (by positivity) h1
  have a := (Int.zpow_le_iff_le_log (b := 2) (by norm_num) hpos (x := L)).mp (by exact_mod_cast h1)
  have b := (Int.lt_zpow_iff_log_lt (b := 2) (by norm_num) hpos (x := L + 1)).mp
    (by exact_mod_cast h2)
  omega

theorem roundBinary_eval (p : ℕ) (x : ℚ) (L m : ℤ) (h1 : 2 ^ L ≤ x) (h2 : x < 2 ^ (L + 1))
    (hm : roundHalfEven (x / 2 ^ (L - (p - 1))) = m) :
    roundBinary p x = (m : ℚ) * 2 ^ (L - (p - 1)) := by
  have hpos : 0 < x := lt_of_lt_of_le (by positivity) h1
  unfold roundBinary
  rw [if_neg (ne_of_gt hpos), abs_of_pos hpos, int_log_two_eq x L h1 h2, hm]

theorem roundHalfEven_eval (x : ℚ) (f : ℤ) (h1 : (f : ℚ) ≤ x) (h2 : x < f + 1) :
    roundHalfEven x =
      if x - f < 1 / 2 then f
      else if 1 / 2 < x - f then f + 1
      else if f % 2 = 0 then f else f + 1 := by
  have hf : ⌊x⌋ = f := Int.floor_eq_iff.mpr ⟨h1, h2⟩
  unfold roundHalfEven
  rw [hf]



/-! ## Temperature -/

theorem roundDouble_quotient_zero :
    roundDouble (((0 + 13200 : Int) : ℚ) / 280) = 6634767308179749 / 2 ^ 47 := by
  unfold roundDouble
  rw [roundBinary_eval 53 _ 5 6634767308179749 (by norm_num) (by norm_num)]
  · norm_num
  · rw [roundHalfEven_eval _ 6634767308179748 (by norm_num) (by norm_num)]
    norm_num

theorem roundDouble_sum_zero :
    roundDouble (35 + 6634767308179749 / 2 ^ 47) = 5780289700308114 / 2 ^ 46 := by
  unfold roundDouble
  rw [roundBinary_eval 53 _ 6 5780289700308114 (by norm_num) (by norm_num)]
  · norm_num
  · rw [roundHalfEven_eval _ 5780289700308114 (by norm_num) (by norm_num)]
    norm_num

theorem toInt16_range (x : Int) : -32768 ≤ toInt16 x ∧ toInt16 x ≤ 32767 := by
  unfold toInt16
  omega

theorem read16_range (T : Transport σ) (d : Driver σ) (reg : Nat) :
    -32768 ≤ (read16 T d reg).1 ∧ (read16 T d reg).1 ≤ 32767 :=
  toInt16_range _

/-- The `double` evaluation of the temperature formula for a raw value in the
`int16_t` range is within `2^-45` of the exact rational. -/
theorem temperature_error (t : Int) (h1 : -32768 ≤ t) (h2 : t ≤ 32767) :
    |roundDouble (35 + roundDouble (((t + 13200 : Int) : ℚ) / 280)) -
      (35 + ((t : ℚ) + 13200) / 280)| ≤ 1 / 2 ^ 45 := by
  have c1 : (-32768 : ℚ) ≤ t := by exact_mod_cast h1
  have c2 : (t : ℚ) ≤ 32767 := by exact_mod_cast h2
  have hq : (((t + 13200 : Int) : ℚ) / 280) = ((t : ℚ) + 13200) / 280 := by push_cast; ring
  rw [hq]
  set q : ℚ := ((t : ℚ) + 13200) / 280 with hqdef
  have q1 : -70 ≤ q := by rw [hqdef, le_div_iff₀ (by norm_num)]; linarith
  have q2 : q ≤ 165 := by rw [hqdef, div_le_iff₀ (by norm_num)]; linarith
  have e1 : |roundDouble q - q| ≤ 2 ^ ((8 : ℤ) - 1 - (53 : ℕ)) :=
    abs_roundBinary_sub_le 53 q 8 (by rw [abs_lt]; constructor <;> norm_num <;> linarith)
  have hpow : (2 : ℚ) ^ ((8 : ℤ) - 1 - (53 : ℕ)) = 1 / 2 ^ 46 := by
    norm_num [zpow_neg]
  rw [hpow] at e1
  have e1' := abs_le.mp e1
  have e2 : |roundDouble (35 + roundDouble q) - (35 + roundDouble q)| ≤
      2 ^ ((8 : ℤ) - 1 - (53 : ℕ)) :=
    abs_roundBinary_sub_le 53 _ 8 (by
      rw [abs_lt]
      have : (1 : ℚ) / 2 ^ 46 ≤ 1 := by norm_num
      constructor <;> norm_num <;> linarith [e1'.1, e1'.2])
  rw [hpow] at e2
  have e2' := abs_le.mp e2
  rw [abs_le]
  have h45 : (1 : ℚ) / 2 ^ 45 = 1 / 2 ^ 46 + 1 / 2 ^ 46 := by norm_num
  constructor <;> linarith [e1'.1, e1'.2, e2'.1, e2'.2]

/-- C10 (as stated): the temperature is not the exact rational.  With the
temperature register reading `t = 0`, `getTemperature` returns the `double`
`5780289700308114 / 2^46` (about 82.14), which is not `35 + 13200/280 = 575/7`. -/
theorem getTemperature_not_exact :
    (read16 regBus (onRegs (fun _ => 0)) sampleHeader.ITG3200_TMP_H).1 = 0 ∧
    (getTemperature regBus sampleHeader (onRegs (fun _ => 0))).1 = 5780289700308114 / 2 ^ 46 ∧
    (getTemperature regBus sampleHeader (onRegs (fun _ => 0))).1 ≠ 35 + (0 + 13200) / 280 ∧
    (35 + (0 + 13200) / 280 : ℚ) = 575 / 7 := by
  have h : (read16 regBus (onRegs (fun _ => 0)) sampleHeader.ITG3200_TMP_H).1 = 0 := by decide
  have g : (getTemperature regBus sampleHeader (onRegs (fun _ => 0))).1 =
      5780289700308114 / 2 ^ 46 := by
    simp only [getTemperature]
    rw [h, roundDouble_quotient_zero, roundDouble_sum_zero]
  refine ⟨h, g, ?_, by norm_num⟩
  rw [g]
  norm_num

/-- C10 (amended): `getTemperature` returns the `double` evaluation of
`35 + (t + 13200) / 280`, where `t` is the signed 16-bit value `read16` returns
for the temperature register: the quotient rounded to `double`, added to 35 and
rounded again.  For every `t` the result is within `2^-45` of the exact rational
`35 + (t + 13200) / 280`, and for `t = -13200` it is exactly 35. -/
theorem getTemperature_accuracy (T : Transport σ) (H : Header) (d : Driver σ) :
    (getTemperature T H d).1 =
      roundDouble (35 + roundDouble
        ((((read16 T d H.ITG3200_TMP_H).1 + 13200 : Int) : ℚ) / 280)) ∧
    |(getTemperature T H d).1 -
      (35 + (((read16 T d H.ITG3200_TMP_H).1 : ℚ) + 13200) / 280)| ≤ 1 / 2 ^ 45 ∧
    ((read16 T d H.ITG3200_TMP_H).1 = -13200 → (getTemperature T H d).1 = 35) := by
  refine ⟨rfl, ?_, ?_⟩
  · exact temperature_error _ (read16_range T d _).1 (read16_range T d _).2
  · intro h
    simp only [getTemperature]
    rw [h]
    have hz : roundDouble ((((-13200 : Int) + 13200 : Int) : ℚ) / 280) = 0 := by
      norm_num [roundDouble, roundBinary]
    have h35 := roundBinary_repr 53 35 0 (by norm_num)
    norm_num at h35
    rw [hz, add_zero]
    exact h35

theorem getTemperature_accuracy_witness :
    (read16 regBus (onRegs (fun a => if a = 0x1B then 0xCC else 0x70))
      sampleHeader.ITG3200_TMP_H).1 = -13200 ∧
    (getTemperature regBus sampleHeader
      (onRegs (fun a => if a = 0x1B then 0xCC else 0x70))).1 = 35 :=
  ⟨by decide,
    (getTemperature_accuracy regBus sampleHeader
      (onRegs (fun a => if a = 0x1B then 0xCC else 0x70))).2.2 (by decide)⟩


/-! ## Transport status codes -/

/-- C8 (as stated): a transport error does not propagate.  On a transport whose
address-write phase fails with status -1, `read(0x3E)` still returns a byte
(`0x5A`, the stale byte the read phase delivers); on a transport where both
phases fail, it returns a byte as well (`0xFF` as an `int8_t`, that is -1,
which the caller cannot tell from a register holding `0xFF`). -/
theorem read_swallows_transport_error :
    (nackBus.io_write () [0x3E]).1 = -1 ∧
    (read nackBus (attach () 0 0 0) 0x3E).1 = 0x5A ∧
    (deadBus.io_write () [0x3E]).1 = -1 ∧
    (deadBus.io_read () 1).1 = -1 ∧
    (read deadBus (attach () 0 0 0) 0x3E).1 = -1 ∧
    (read regBus (onRegs (fun _ => 0xFF)) 0x3E).1 = -1 := by
  decide

/-- C8 (amended): `read(reg)` has no failure result.  On every transport it
performs the address-write phase and then the one-byte read phase, whatever
status the write phase reported, and returns the byte the read phase left in
the one-byte buffer as an `int8_t`; its result and the device state it leaves do
not depend on the status codes of the two phases, so a transport error is not
reported to the caller. -/
theorem read_ignores_status (T : Transport σ) (fw fr : Int → Int) (d : Driver σ)
    (reg : Nat) :
    read (reStatus T fw fr) d reg = read T d reg ∧
    (read T d reg).1 =
      toInt8 ((T.io_read (T.io_write d.device [reg % 256]).2 1).2.1.getD 0 0) ∧
    (read T d reg).2.device = (T.io_read (T.io_write d.device [reg % 256]).2 1).2.2 :=
  ⟨rfl, rfl, rfl⟩

/-! ## An instance of the frame property of `setRegisterBits` / `clearRegisterBits` -/

theorem setRegisterBits_clearRegisterBits_frame_witness :
    (∀ i, ((1 <<< 6) % 256).testBit i = false →
      ((setRegisterBits regBus (onRegs (fun _ => 0xA5)) 0x3E 1 6).device.regs 0x3E).testBit i =
        ((onRegs (fun _ => 0xA5)).device.regs 0x3E).testBit i) ∧
    (∀ i, ((1 <<< 6) % 256).testBit i = false →
      ((clearRegisterBits regBus (onRegs (fun _ => 0xA5)) 0x3E 1 6).device.regs 0x3E).testBit i =
        ((onRegs (fun _ => 0xA5)).device.regs 0x3E).testBit i) ∧
    (∀ a, a ≠ 0x3E →
      (setRegisterBits regBus (onRegs (fun _ => 0xA5)) 0x3E 1 6).device.regs a =
        (onRegs (fun _ => 0xA5)).device.regs a ∧
      (clearRegisterBits regBus (onRegs (fun _ => 0xA5)) 0x3E 1 6).device.regs a =
        (onRegs (fun _ => 0xA5)).device.regs a) :=
  setRegisterBits_clearRegisterBits_frame (onRegs (fun _ => 0xA5)) 0x3E 1 6
    (by decide) (by decide) (by decide) (by decide)

/-! ## The field update written by `setRegisterBitsValue` -/

theorem testBit_shl32 (n k i : Nat) (hi : i < 8) :
    (shl32 n k).testBit i = (n <<< k).testBit i := by
  unfold shl32
  have h32 : (4294967296 : Nat) = 2 ^ 32 := by norm_num
  rw [h32, Nat.testBit_mod_two_pow]
  have : i < 32 := by omega
  simp [this]

/-- The byte the source computes in `setRegisterBitsValue`, on 32-bit patterns,
is the field update of the specification. -/
theorem written_eq_fieldUpdate (r m b v : Nat) :
    ((r &&& not32 (shl32 m b)) % 256 ||| shl32 (m &&& v) b) % 256 = fieldUpdate r m b v := by
  apply Nat.eq_of_testBit_eq
  intro i
  unfold fieldUpdate
  rw [testBit_mod_256, testBit_mod_256, Nat.testBit_or, Nat.testBit_or, testBit_mod_256,
    Nat.testBit_and, testBit_not32, Nat.testBit_xor, Nat.testBit_and]
  by_cases hi : i < 8
  · have h32 : i < 32 := by omega
    rw [testBit_shl32 _ _ _ hi, testBit_shl32 _ _ _ hi, Nat.and_comm m v]
    simp only [hi, h32, decide_True, Bool.true_and]
    cases r.testBit i <;> cases (m <<< b).testBit i <;> simp
  · simp [hi]

theorem write_regBus_device (d : Driver RegFile) (reg data : Nat) :
    (write regBus d reg data).device =
      { regs := fun a => if a = reg % 256 then data % 256 else d.device.regs a
        ptr := reg % 256 + 1 } := by
  simp [write, regBus, setAt, RegFile.store]

theorem fieldUpdate_lt (r m b v : Nat) : fieldUpdate r m b v < 256 :=
  Nat.mod_lt _ (by norm_num)

theorem setRegisterBitsValue_device (d : Driver RegFile) (reg mask bit value : Nat) :
    (setRegisterBitsValue regBus d reg mask bit value).device =
      { regs := fun a =>
          if a = reg % 256 then
            fieldUpdate (d.device.regs (reg % 256) % 256) (mask % 256) (bit % 256) (value % 256)
          else d.device.regs a
        ptr := reg % 256 + 1 } := by
  simp only [setRegisterBitsValue, read_regBus, write_regBus_device, toUInt8_toInt8,
    written_eq_fieldUpdate, Nat.mod_eq_of_lt (fieldUpdate_lt _ _ _ _)]

theorem fieldUpdate_idem (r m b v : Nat) :
    fieldUpdate (fieldUpdate r m b v) m b v = fieldUpdate r m b v := by
  apply Nat.eq_of_testBit_eq
  intro i
  unfold fieldUpdate
  simp only [testBit_mod_256, Nat.testBit_or, Nat.testBit_xor, Nat.testBit_and,
    Nat.testBit_shiftLeft]
  by_cases hi : i < 8
  · simp only [hi, decide_True, Bool.true_and]
    cases r.testBit i <;> cases decide (i ≥ b) <;> cases m.testBit (i - b) <;>
      cases v.testBit (i - b) <;> simp
  · simp [hi]

/-- C14: `setRegisterBitsValue` is idempotent.  On the simulated register file,
for every register content, register address, mask, bit offset and value,
applying `setRegisterBitsValue(reg, mask, bit, v)` twice leaves the register
file (registers and register pointer) in the same state as applying it once,
and `getRegisterValue(reg, mask, bit)` returns the same result after the first
and after the second application. -/
theorem setRegisterBitsValue_idempotent (d : Driver RegFile) (reg mask bit v : Nat) :
    (setRegisterBitsValue regBus (setRegisterBitsValue regBus d reg mask bit v)
        reg mask bit v).device =
      (setRegisterBitsValue regBus d reg mask bit v).device ∧
    (getRegisterValue regBus
        (setRegisterBitsValue regBus (setRegisterBitsValue regBus d reg mask bit v)
          reg mask bit v) reg mask bit).1 =
      (getRegisterValue regBus (setRegisterBitsValue regBus d reg mask bit v) reg mask bit).1 := by
  have h : (setRegisterBitsValue regBus (setRegisterBitsValue regBus d reg mask bit v)
        reg mask bit v).device =
      (setRegisterBitsValue regBus d reg mask bit v).device := by
    rw [setRegisterBitsValue_device (setRegisterBitsValue regBus d reg mask bit v),
      setRegisterBitsValue_device d]
    simp only [if_pos, Nat.mod_eq_of_lt (fieldUpdate_lt _ _ _ _), fieldUpdate_idem]
    congr 1
    funext a
    by_cases ha : a = reg % 256 <;> simp [ha]
  refine ⟨h, ?_⟩
  rw [getRegisterValue_regBus, getRegisterValue_regBus, h]



theorem testBit_fieldUpdate (r m b v i : Nat) :
    (fieldUpdate r m b v).testBit i =
      (decide (i < 8) &&
        ((r.testBit i && !(m <<< b).testBit i) || ((v &&& m) <<< b).testBit i)) := by
  unfold fieldUpdate
  rw [testBit_mod_256, Nat.testBit_or, Nat.testBit_xor, Nat.testBit_and]
  cases r.testBit i <;> cases (m <<< b).testBit i <;> simp

theorem testBit_eq_false_of_lt_256 (r i : Nat) (hr : r < 256) (hi : ¬ i < 8) :
    r.testBit i = false := by
  have h := testBit_mod_256 r i
  rw [Nat.mod_eq_of_lt hr] at h
  rw [h]
  simp [hi]

/-- C17: the byte `setRegisterBitsValue` writes.  On the simulated register
file, for every register byte `r`, mask, value and bit offset,
`setRegisterBitsValue(reg, mask, bit, v)` leaves in `reg` exactly the byte
`((r AND NOT (mask << bit)) OR ((v AND mask) << bit)) mod 256`: bit `i` of it is
bit `i` of `r` outside `mask << bit` and bit `i` of `(v AND mask) << bit` inside;
every bit of `r` outside `(mask << bit) mod 256` is preserved; a value that
agrees with `v` on the mask gives the same result (bits of `v` outside the mask
are ignored); and no other register changes. -/
theorem setRegisterBitsValue_written (d : Driver RegFile) (reg mask bit v : Nat)
    (hreg : reg < 256) (hr : d.device.regs reg < 256) (hmask : mask < 256) (hv : v < 256)
    (hbit : bit < 24) :
    (setRegisterBitsValue regBus d reg mask bit v).device.regs reg =
      fieldUpdate (d.device.regs reg) mask bit v ∧
    (∀ i, i < 8 →
      ((setRegisterBitsValue regBus d reg mask bit v).device.regs reg).testBit i =
        (((d.device.regs reg).testBit i && !(mask <<< bit).testBit i) ||
          ((v &&& mask) <<< bit).testBit i)) ∧
    (∀ i, ((mask <<< bit) % 256).testBit i = false →
      ((setRegisterBitsValue regBus d reg mask bit v).device.regs reg).testBit i =
        (d.device.regs reg).testBit i) ∧
    (∀ v', v' < 256 → v' &&& mask = v &&& mask →
      (setRegisterBitsValue regBus d reg mask bit v').device =
        (setRegisterBitsValue regBus d reg mask bit v).device) ∧
    (∀ a, a ≠ reg →
      (setRegisterBitsValue regBus d reg mask bit v).device.regs a = d.device.regs a) := by
  have e1 : reg % 256 = reg := Nat.mod_eq_of_lt hreg
  have e2 : d.device.regs reg % 256 = d.device.regs reg := Nat.mod_eq_of_lt hr
  have e3 : mask % 256 = mask := Nat.mod_eq_of_lt hmask
  have e4 : bit % 256 = bit := Nat.mod_eq_of_lt (by omega)
  have e5 : v % 256 = v := Nat.mod_eq_of_lt hv
  have hw : (setRegisterBitsValue regBus d reg mask bit v).device.regs reg =
      fieldUpdate (d.device.regs reg) mask bit v := by
    rw [setRegisterBitsValue_device, e1, e2, e3, e4, e5]
    simp
  refine ⟨hw, ?_, ?_, ?_, ?_⟩
  · intro i hi
    rw [hw, testBit_fieldUpdate]
    simp [hi]
  · intro i hF
    rw [hw, testBit_fieldUpdate]
    by_cases hi : i < 8
    · rw [testBit_mod_256] at hF
      simp only [hi, decide_True, Bool.true_and] at hF
      have hV : ((v &&& mask) <<< bit).testBit i = false := by
        rw [Nat.testBit_shiftLeft] at hF ⊢
        rw [Nat.testBit_and]
        cases hge : decide (i ≥ bit) <;> simp [hge] at hF ⊢
        simp [hF]
      simp [hi, hF, hV]
    · simp [hi, testBit_eq_false_of_lt_256 _ i hr hi]
  · intro v' hv' hvm
    rw [setRegisterBitsValue_device, setRegisterBitsValue_device, Nat.mod_eq_of_lt hv', e5]
    have : ∀ r, fieldUpdate r (mask % 256) (bit % 256) v' =
        fieldUpdate r (mask % 256) (bit % 256) v := by
      intro r
      unfold fieldUpdate
      rw [e3, hvm]
    simp only [this]
  · intro a ha
    rw [setRegisterBitsValue_device, e1]
    simp [ha]

theorem setRegisterBitsValue_written_witness :
    (setRegisterBitsValue regBus (onRegs (fun _ => 0xA5)) 0x16 3 3 2).device.regs 0x16 =
      fieldUpdate ((onRegs (fun _ => 0xA5)).device.regs 0x16) 3 3 2 ∧
    fieldUpdate 0xA5 3 3 2 = 0xB5 :=
  ⟨(setRegisterBitsValue_written (onRegs (fun _ => 0xA5)) 0x16 3 3 2
      (by decide) (by decide) (by decide) (by decide) (by decide)).1, by decide⟩

/-- C18: the signed byte read does not leak into field values.  On the
simulated register file holding bytes, `read(reg)` returns the register byte as
an `int8_t` (the byte minus 256 for bytes `0x80..0xFF`), and yet for every mask in
0..255 and every bit offset in 0..7 `getRegisterValue(reg, mask, bit)` equals
`(r AND mask) >> bit` computed on the unsigned byte `r` and lies in 0..255, and
`whoAmI()` and `getSampleRateDivider()` return exactly the register byte. -/
theorem getRegisterValue_unsigned (H : Header) (d : Driver RegFile) (reg mask bit : Nat)
    (hreg : reg < 256) (hregs : ∀ a, d.device.regs a < 256) (hmask : mask < 256)
    (hbit : bit ≤ 7) (hwho : H.ITG3200_WHO < 256) (hsmpl : H.ITG3200_SMPL < 256) :
    (128 ≤ d.device.regs reg → (read regBus d reg).1 = (d.device.regs reg : Int) - 256) ∧
    (d.device.regs reg < 128 → (read regBus d reg).1 = (d.device.regs reg : Int)) ∧
    (getRegisterValue regBus d reg mask bit).1 = (d.device.regs reg &&& mask) >>> bit ∧
    (getRegisterValue regBus d reg mask bit).1 < 256 ∧
    (whoAmI regBus H d).1 = d.device.regs H.ITG3200_WHO ∧
    (getSampleRateDivider regBus H d).1 = d.device.regs H.ITG3200_SMPL := by
  have e1 : reg % 256 = reg := Nat.mod_eq_of_lt hreg
  have e2 : ∀ a, d.device.regs a % 256 = d.device.regs a := fun a => Nat.mod_eq_of_lt (hregs a)
  have e3 : mask % 256 = mask := Nat.mod_eq_of_lt hmask
  have e4 : bit % 256 = bit := Nat.mod_eq_of_lt (by omega)
  have hlt : (d.device.regs reg &&& mask) >>> bit < 256 := by
    rw [Nat.shiftRight_eq_div_pow]
    exact lt_of_le_of_lt (Nat.div_le_self _ _) (lt_of_le_of_lt Nat.and_le_right hmask)
  have hg : (getRegisterValue regBus d reg mask bit).1 = (d.device.regs reg &&& mask) >>> bit := by
    rw [getRegisterValue_regBus, e1, e2, e3, e4, Nat.mod_eq_of_lt hlt]
  refine ⟨?_, ?_, hg, ?_, ?_, ?_⟩
  · intro h
    rw [read_regBus, e1]
    simp only [toInt8, e2]
    have := hregs reg
    split <;> omega
  · intro h
    rw [read_regBus, e1]
    simp only [toInt8, e2]
    split <;> omega
  · rw [hg]
    exact hlt
  · simp only [whoAmI, read_regBus, toUInt8_toInt8, Nat.mod_eq_of_lt hwho, e2]
  · simp only [getSampleRateDivider, read_regBus, toUInt8_toInt8, Nat.mod_eq_of_lt hsmpl, e2]

theorem getRegisterValue_unsigned_witness :
    (read regBus (onRegs (fun _ => 0xE8)) 0x3E).1 = -24 ∧
    (getRegisterValue regBus (onRegs (fun _ => 0xE8)) 0x3E 0xC0 6).1 = 3 ∧
    (whoAmI regBus sampleHeader (onRegs (fun _ => 0xE8))).1 = 0xE8 ∧
    (getSampleRateDivider regBus sampleHeader (onRegs (fun _ => 0xE8))).1 = 0xE8 := by
  have h := getRegisterValue_unsigned sampleHeader (onRegs (fun _ => 0xE8)) 0x3E 0xC0 6
    (by decide) (fun _ => (by decide : (0xE8 : Nat) < 256)) (by decide) (by decide)
    (by decide) (by decide)
  refine ⟨?_, ?_, h.2.2.2.2.1, h.2.2.2.2.2⟩
  · rw [h.1 (by decide)]
    decide
  · rw [h.2.2.1]
    decide



/-! ## Traces of bus transactions -/

/-- C12: the word read is big-endian and signed.  For every transport whose
two-byte read delivers `(high, low)`, `read16(reg)` returns the two's-complement
signed 16-bit value of `high * 256 + low`, and the transactions it issues are
exactly the write of the one-byte register address followed by the two-byte
read. -/
theorem read16_bigEndian_signed (T : Transport σ) (d : Driver (σ × List BusEvent))
    (reg high low : Nat) (hreg : reg < 256) (hh : high < 256) (hl : low < 256)
    (hb : (T.io_read (T.io_write d.device.1 [reg]).2 2).2.1 = [high, low]) :
    (read16 (traced T) d reg).1 = twosComplement16 (high * 256 + low) ∧
    (read16 (traced T) d reg).2.device.2 =
      d.device.2 ++ [BusEvent.write [reg], BusEvent.read 2] := by
  have e1 : reg % 256 = reg := Nat.mod_eq_of_lt hreg
  constructor
  · simp only [read16, traced, e1, hb]
    have : toInt16 (((fill d.readBuffer [high, low] 0 <<< 8) |||
        fill d.readBuffer [high, low] 1 : Nat) : Int) = twosComplement16 (high * 256 + low) := by
      simp [fill, toInt16_word, Nat.mod_eq_of_lt hh, Nat.mod_eq_of_lt hl, hh, hl]
    exact this
  · simp [read16, traced, e1]

theorem read16_bigEndian_signed_witness :
    (read16 (traced regBus)
      (attach ({ regs := fun a => if a = 0x1B then 0x80 else 0x00, ptr := 0 }, []) 0 0 0)
      0x1B).1 = twosComplement16 (0x80 * 256 + 0x00) ∧
    (read16 (traced regBus)
      (attach ({ regs := fun a => if a = 0x1B then 0x80 else 0x00, ptr := 0 }, []) 0 0 0)
      0x1B).2.device.2 = [] ++ [BusEvent.write [0x1B], BusEvent.read 2] ∧
    twosComplement16 (0x80 * 256 + 0x00) = -32768 ∧
    twosComplement16 (0xFF * 256 + 0xFF) = -1 ∧
    twosComplement16 (0x7F * 256 + 0xFF) = 32767 :=
  ⟨(read16_bigEndian_signed regBus
      (attach ({ regs := fun a => if a = 0x1B then 0x80 else 0x00, ptr := 0 }, []) 0 0 0)
      0x1B 0x80 0x00 (by decide) (by decide) (by decide) (by decide)).1,
   (read16_bigEndian_signed regBus
      (attach ({ regs := fun a => if a = 0x1B then 0x80 else 0x00, ptr := 0 }, []) 0 0 0)
      0x1B 0x80 0x00 (by decide) (by decide) (by decide) (by decide)).2,
   by decide, by decide, by decide⟩

theorem read_traced_regBus (d : Driver (RegFile × List BusEvent)) (reg : Nat) :
    read (traced regBus) d reg =
      (toInt8 (d.device.1.regs (reg % 256)),
        { d with device := ({ regs := d.device.1.regs, ptr := reg % 256 + 1 },
            d.device.2 ++ [BusEvent.write [reg % 256], BusEvent.read 1]) }) := by
  simp [read, traced, regBus, RegFile.store]

theorem write_traced_regBus_device (d : Driver (RegFile × List BusEvent)) (reg data : Nat) :
    (write (traced regBus) d reg data).device =
      ({ regs := fun a => if a = reg % 256 then data % 256 else d.device.1.regs a
         ptr := reg % 256 + 1 },
        d.device.2 ++ [BusEvent.write [reg % 256, data % 256]]) := by
  simp [write, traced, regBus, setAt, RegFile.store]

theorem setBits_eq (r m b : Nat) : (r ||| shl32 m b) % 256 = (r ||| (m <<< b)) % 256 := by
  apply Nat.eq_of_testBit_eq
  intro i
  rw [testBit_mod_256, testBit_mod_256, Nat.testBit_or, Nat.testBit_or]
  by_cases hi : i < 8
  · rw [testBit_shl32 _ _ _ hi]
  · simp [hi]

/-- The device state and the trace after `begin` on the simulated register file. -/
theorem begin_device (H : Header) (regs : Nat → Nat) (d : Driver (RegFile × List BusEvent)) :
    (begin (regSession regs) (traced regBus) H d).device =
      let w0 := (regs (H.ITG3200_PWR_M % 256) % 256 |||
        (H.H_RESET_MASK % 256) <<< (H.H_RESET_BIT % 256)) % 256
      let regs1 : Nat → Nat := fun a => if a = H.ITG3200_PWR_M % 256 then w0 else regs a
      let regs2 : Nat → Nat := fun a => if a = H.ITG3200_SMPL % 256 then 0 else regs1 a
      let w2 := fieldUpdate (regs2 (H.ITG3200_DLPF % 256) % 256) (H.FS_SEL_MASK % 256)
        (H.FS_SEL_BIT % 256) (H.RANGE_2000_DEG_PER_SEC % 256)
      ({ regs := fun a => if a = H.ITG3200_DLPF % 256 then w2 else regs2 a
         ptr := H.ITG3200_DLPF % 256 + 1 },
       [BusEvent.write [H.ITG3200_PWR_M % 256], BusEvent.read 1,
        BusEvent.write [H.ITG3200_PWR_M % 256, w0],
        BusEvent.write [H.ITG3200_SMPL % 256, 0],
        BusEvent.write [H.ITG3200_DLPF % 256], BusEvent.read 1,
        BusEvent.write [H.ITG3200_DLPF % 256, w2]]) := by
  simp only [begin, resetDevice, setSampleRateDivider, setFullScaleSelection, setRegisterBits,
    setRegisterBitsValue, read_traced_regBus, write_traced_regBus_device, toUInt8_toInt8,
    written_eq_fieldUpdate, regSession, Nat.mod_mod, Nat.zero_mod,
    Nat.mod_eq_of_lt (fieldUpdate_lt _ _ _ _), List.nil_append, List.append_assoc,
    List.cons_append, List.singleton_append]
  simp only [setBits_eq]



/-- C13: the initialization sequence.  On the traced register file, `begin()`
issues exactly these transactions, in this order: the read-modify-write of the
power-management register (address write, one-byte read, write of the byte read
with the reset bits `H_RESET_MASK << H_RESET_BIT` set), the write of 0 to the
sample-rate-divider register, and the read-modify-write of the DLPF register
(address write, one-byte read, write of the byte read with the full-scale field
replaced by the code of the 2000 deg/s range).  No other transaction is issued, and
afterwards the sample-rate-divider register holds 0. -/
theorem begin_trace (H : Header) (regs : Nat → Nat) (d : Driver (RegFile × List BusEvent))
    (hpwr : H.ITG3200_PWR_M < 256) (hsmpl : H.ITG3200_SMPL < 256) (hdlpf : H.ITG3200_DLPF < 256)
    (hds : H.ITG3200_DLPF ≠ H.ITG3200_SMPL) (hdp : H.ITG3200_DLPF ≠ H.ITG3200_PWR_M)
    (hrm : H.H_RESET_MASK < 256) (hrb : H.H_RESET_BIT < 24)
    (hfm : H.FS_SEL_MASK < 256) (hfb : H.FS_SEL_BIT < 24)
    (hcode : H.RANGE_2000_DEG_PER_SEC < 256) (hregs : ∀ a, regs a < 256) :
    (begin (regSession regs) (traced regBus) H d).device.2 =
      [BusEvent.write [H.ITG3200_PWR_M], BusEvent.read 1,
       BusEvent.write [H.ITG3200_PWR_M,
         (regs H.ITG3200_PWR_M ||| H.H_RESET_MASK <<< H.H_RESET_BIT) % 256],
       BusEvent.write [H.ITG3200_SMPL, 0],
       BusEvent.write [H.ITG3200_DLPF], BusEvent.read 1,
       BusEvent.write [H.ITG3200_DLPF,
         fieldUpdate (regs H.ITG3200_DLPF) H.FS_SEL_MASK H.FS_SEL_BIT
           H.RANGE_2000_DEG_PER_SEC]] ∧
    (∀ i, ((H.H_RESET_MASK <<< H.H_RESET_BIT) % 256).testBit i = true →
      ((regs H.ITG3200_PWR_M ||| H.H_RESET_MASK <<< H.H_RESET_BIT) % 256).testBit i = true) ∧
    (begin (regSession regs) (traced regBus) H d).device.1.regs H.ITG3200_SMPL = 0 := by
  have e1 : H.ITG3200_PWR_M % 256 = H.ITG3200_PWR_M := Nat.mod_eq_of_lt hpwr
  have e2 : H.ITG3200_SMPL % 256 = H.ITG3200_SMPL := Nat.mod_eq_of_lt hsmpl
  have e3 : H.ITG3200_DLPF % 256 = H.ITG3200_DLPF := Nat.mod_eq_of_lt hdlpf
  have e4 : H.H_RESET_MASK % 256 = H.H_RESET_MASK := Nat.mod_eq_of_lt hrm
  have e5 : H.H_RESET_BIT % 256 = H.H_RESET_BIT := Nat.mod_eq_of_lt (by omega)
  have e6 : H.FS_SEL_MASK % 256 = H.FS_SEL_MASK := Nat.mod_eq_of_lt hfm
  have e7 : H.FS_SEL_BIT % 256 = H.FS_SEL_BIT := Nat.mod_eq_of_lt (by omega)
  have e8 : H.RANGE_2000_DEG_PER_SEC % 256 = H.RANGE_2000_DEG_PER_SEC := Nat.mod_eq_of_lt hcode
  have e9 : ∀ a, regs a % 256 = regs a := fun a => Nat.mod_eq_of_lt (hregs a)
  have hsd : H.ITG3200_SMPL ≠ H.ITG3200_DLPF := fun h => hds h.symm
  rw [begin_device]
  simp only [e1, e2, e3, e4, e5, e6, e7, e8, e9, if_neg hds, if_neg hdp, if_neg hsd, if_pos]
  refine ⟨trivial, ?_, trivial⟩
  intro i hi
  rw [testBit_mod_256] at hi ⊢
  rw [Nat.testBit_or]
  simp only [Bool.and_eq_true, decide_eq_true_eq] at hi
  simp [hi.1, hi.2]

theorem begin_trace_witness :
    (begin (regSession (fun _ => 0)) (traced regBus) sampleHeader
      (attach ({ regs := fun _ => 7, ptr := 0 }, [BusEvent.read 9]) 0 0 0)).device.2 =
      [BusEvent.write [0x3E], BusEvent.read 1, BusEvent.write [0x3E, 0x80],
       BusEvent.write [0x15, 0],
       BusEvent.write [0x16], BusEvent.read 1, BusEvent.write [0x16, 0x18]] ∧
    (begin (regSession (fun _ => 0)) (traced regBus) sampleHeader
      (attach ({ regs := fun _ => 7, ptr := 0 }, [BusEvent.read 9]) 0 0 0)).device.1.regs 0x15
      = 0 := by
  have h := begin_trace sampleHeader (fun _ => 0)
    (attach ({ regs := fun _ => 7, ptr := 0 }, [BusEvent.read 9]) 0 0 0)
    (by decide) (by decide) (by decide) (by decide) (by decide) (by decide) (by decide)
    (by decide) (by decide) (by decide) (fun _ => (by decide : (0 : Nat) < 256))
  exact ⟨h.1, h.2.2⟩



/-! ## Calibration: truncation and independence of the prior offsets -/

/-- For an accumulated sum within -32767..32767 the stored offset is the
negated quotient, truncated toward zero. -/
theorem axisOffset_eq_neg_tdiv (S : Int) (N : Nat) (hN : 1 ≤ N)
    (h1 : -32767 ≤ S) (h2 : S ≤ 32767) :
    axisOffset (toInt16 S) N = -(Int.tdiv S N) := by
  rw [toInt16_of_range S (by omega) (by omega)]
  have hNpos : (0 : Int) < N := by exact_mod_cast hN
  unfold axisOffset
  rcases lt_trichotomy S 0 with hneg | hzero | hpos
  · have hq : ((S.natAbs / N : Nat) : Int) = (-S) / N := by
      rw [Int.natCast_div, ← Int.abs_eq_natAbs, abs_of_neg hneg]
    have hle : (-S) / (N : Int) ≤ -S := Int.ediv_le_self _ (by omega)
    have hge : 0 ≤ (-S) / (N : Int) := Int.ediv_nonneg (by omega) (by omega)
    have ht : Int.tdiv S N = -((-S) / N) := by
      have := Int.neg_tdiv (-S) N
      rw [neg_neg] at this
      rw [this, Int.tdiv_eq_ediv (by omega) (by omega)]
    simp only [hq]
    rw [if_neg (by omega), ht, neg_neg, toInt16_of_range _ (by omega) (by omega)]
  · subst hzero
    simp [toInt16]
  · have hq : ((S.natAbs / N : Nat) : Int) = S / N := by
      rw [Int.natCast_div, ← Int.abs_eq_natAbs, abs_of_pos hpos]
    have hle : S / (N : Int) ≤ S := Int.ediv_le_self _ (by omega)
    have hge : 0 ≤ S / (N : Int) := Int.ediv_nonneg (by omega) (by omega)
    simp only [hq]
    rw [if_pos hpos, Int.tdiv_eq_ediv (by omega) (by omega),
      toInt16_of_range (S / N) (by omega) (by omega),
      toInt16_of_range (-(S / N)) (by omega) (by omega)]

/-- C15: calibration truncates toward zero.  For every `N >= 1` and every
stream that delivers the discarded burst and then `N` six-byte bursts,
`zeroCalibrate(N, delay)` returns, and for each axis whose exact sum `S` over the
`N` accumulated reads lies in -32767..32767 the stored offset is `-(S quot N)`,
`quot` being integer division rounding toward zero. -/
theorem calibration_truncates_toward_zero (H : Header) (d : Driver (List (List Nat)))
    (b0 : List Nat) (bursts rest : List (List Nat)) (N delay : Nat)
    (hb0 : b0.length = 6) (hbs : ∀ b ∈ bursts, b.length = 6)
    (hd : d.device = b0 :: (bursts ++ rest))
    (hN : bursts.length = N) (h1 : 1 ≤ N) (h2 : N < 4294967296) :
    ∃ d', zeroCalibrate streamBus H d N delay = some d' ∧
      ((-32767 ≤ axisSum bursts 0 ∧ axisSum bursts 0 ≤ 32767) →
        d'.xOffset = -(Int.tdiv (axisSum bursts 0) N)) ∧
      ((-32767 ≤ axisSum bursts 2 ∧ axisSum bursts 2 ≤ 32767) →
        d'.yOffset = -(Int.tdiv (axisSum bursts 2) N)) ∧
      ((-32767 ≤ axisSum bursts 4 ∧ axisSum bursts 4 ≤ 32767) →
        d'.zOffset = -(Int.tdiv (axisSum bursts 4) N)) := by
  obtain ⟨d', hz, hx, hy, hzz, -⟩ :=
    zeroCalibrate_stream H d b0 bursts rest N delay hb0 hbs hd hN h1 h2
  refine ⟨d', hz, ?_, ?_, ?_⟩
  · intro h
    rw [hx, axisOffset_eq_neg_tdiv _ N h1 h.1 h.2]
  · intro h
    rw [hy, axisOffset_eq_neg_tdiv _ N h1 h.1 h.2]
  · intro h
    rw [hzz, axisOffset_eq_neg_tdiv _ N h1 h.1 h.2]

theorem calibration_truncates_toward_zero_witness :
    ∃ d', zeroCalibrate streamBus sampleHeader
        (attach [burst 9 9 9, burst 3 (-3) 5, burst 4 (-4) 4] 1 2 3) 2 0 = some d' ∧
      d'.xOffset = -3 ∧ d'.yOffset = 3 ∧ d'.zOffset = -4 := by
  obtain ⟨d', hz, hx, hy, hzz⟩ :=
    calibration_truncates_toward_zero sampleHeader
      (attach [burst 9 9 9, burst 3 (-3) 5, burst 4 (-4) 4] 1 2 3) (burst 9 9 9)
      [burst 3 (-3) 5, burst 4 (-4) 4] [] 2 0 (by decide) (by decide) rfl rfl
      (by decide) (by decide)
  refine ⟨d', hz, ?_, ?_, ?_⟩
  · rw [hx (by decide)]
    decide
  · rw [hy (by decide)]
    decide
  · rw [hzz (by decide)]
    decide

/-- C16: calibration ignores the prior offsets.  For every transport, every
`N >= 1` and every two driver states that differ only in their stored offsets,
`zeroCalibrate(N, delay)` returns for both, with the same resulting state (the
same stored offsets in particular): the offsets are reset to zero before any
sample is read. -/
theorem zeroCalibrate_ignores_prior_offsets (T : Transport σ) (H : Header) (d : Driver σ)
    (ox oy oz ox' oy' oz' : Int) (N delay : Nat) (h1 : 1 ≤ N) (h2 : N < 4294967296) :
    ∃ d', zeroCalibrate T H { d with xOffset := ox, yOffset := oy, zOffset := oz } N delay =
        some d' ∧
      zeroCalibrate T H { d with xOffset := ox', yOffset := oy', zOffset := oz' } N delay =
        some d' := by
  have hne : ¬ N % 4294967296 = 0 := by
    rw [Nat.mod_eq_of_lt h2]
    omega
  simp only [zeroCalibrate, if_neg hne]
  exact ⟨_, rfl, rfl⟩

theorem zeroCalibrate_ignores_prior_offsets_witness :
    ∃ d', zeroCalibrate streamBus sampleHeader
        { attach [burst 1 1 1, burst 10 20 30, burst 12 22 32] 0 0 0 with
          xOffset := 100, yOffset := -200, zOffset := 300 } 2 0 = some d' ∧
      zeroCalibrate streamBus sampleHeader
        { attach [burst 1 1 1, burst 10 20 30, burst 12 22 32] 0 0 0 with
          xOffset := -7, yOffset := 0, zOffset := 32767 } 2 0 = some d' :=
  zeroCalibrate_ignores_prior_offsets streamBus sampleHeader
    (attach [burst 1 1 1, burst 10 20 30, burst 12 22 32] 0 0 0)
    100 (-200) 300 (-7) 0 32767 2 0 (by decide) (by decide)



/-! ## Angular velocity -/

theorem roundDouble_one_axis : roundDouble ((1 : ℚ) / 14.375) = 5012702193942813 / 2 ^ 56 := by
  unfold roundDouble
  rw [roundBinary_eval 53 _ (-4) 5012702193942813 (by norm_num) (by norm_num)]
  · norm_num
  · rw [roundHalfEven_eval _ 5012702193942812 (by norm_num) (by norm_num)]
    norm_num

theorem roundFloat_one_axis :
    roundFloat (5012702193942813 / 2 ^ 56) = 9336885 / 2 ^ 27 := by
  unfold roundFloat
  rw [roundBinary_eval 24 _ (-4) 9336885 (by norm_num) (by norm_num)]
  · norm_num
  · rw [roundHalfEven_eval _ 9336885 (by norm_num) (by norm_num)]
    norm_num

/-- The `float` result of `x / 14.375` for an `int16_t` value `x` is within
`2^-13 + 2^-42` of the exact quotient. -/
theorem velocity_error (x : Int) (h1 : -32768 ≤ x) (h2 : x ≤ 32767) :
    |roundFloat (roundDouble ((x : ℚ) / 14.375)) - (x : ℚ) * 8 / 115| ≤
      1 / 2 ^ 13 + 1 / 2 ^ 42 := by
  have c1 : (-32768 : ℚ) ≤ x := by exact_mod_cast h1
  have c2 : (x : ℚ) ≤ 32767 := by exact_mod_cast h2
  have hq : (x : ℚ) / 14.375 = (x : ℚ) * 8 / 115 := by norm_num; ring
  rw [hq]
  set q : ℚ := (x : ℚ) * 8 / 115 with hqdef
  have q1 : -2280 ≤ q := by rw [hqdef, le_div_iff₀ (by norm_num)]; linarith
  have q2 : q ≤ 2280 := by rw [hqdef, div_le_iff₀ (by norm_num)]; linarith
  have e1 : |roundDouble q - q| ≤ 2 ^ ((12 : ℤ) - 1 - (53 : ℕ)) :=
    abs_roundBinary_sub_le 53 q 12 (by rw [abs_lt]; constructor <;> norm_num <;> linarith)
  have hpow1 : (2 : ℚ) ^ ((12 : ℤ) - 1 - (53 : ℕ)) = 1 / 2 ^ 42 := by norm_num [zpow_neg]
  rw [hpow1] at e1
  have e1' := abs_le.mp e1
  have e2 : |roundFloat (roundDouble q) - roundDouble q| ≤ 2 ^ ((12 : ℤ) - 1 - (24 : ℕ)) :=
    abs_roundBinary_sub_le 24 _ 12 (by
      rw [abs_lt]
      have : (1 : ℚ) / 2 ^ 42 ≤ 1 := by norm_num
      constructor <;> norm_num <;> linarith [e1'.1, e1'.2])
  have hpow2 : (2 : ℚ) ^ ((12 : ℤ) - 1 - (24 : ℕ)) = 1 / 2 ^ 13 := by norm_num [zpow_neg]
  rw [hpow2] at e2
  have e2' := abs_le.mp e2
  rw [abs_le]
  constructor <;> linarith [e1'.1, e1'.2, e2'.1, e2'.2]

theorem velocity_exact_1000 : roundFloat (roundDouble (((14375 : Int) : ℚ) / 14.375)) = 1000 := by
  have hq : (((14375 : Int) : ℚ) / 14.375) = ((1000 : ℤ) : ℚ) * 2 ^ (0 : ℤ) := by norm_num
  have h53 := roundBinary_repr 53 1000 0 (by norm_num)
  have h24 := roundBinary_repr 24 1000 0 (by norm_num)
  unfold roundFloat roundDouble
  rw [hq, h53, h24]
  norm_num

theorem velocity_exact_zero : roundFloat (roundDouble (((0 : Int) : ℚ) / 14.375)) = 0 := by
  norm_num [roundFloat, roundDouble, roundBinary]

theorem getXYZ_range (T : Transport σ) (H : Header) (d : Driver σ) :
    (-32768 ≤ (getXYZ T H d).1.1 ∧ (getXYZ T H d).1.1 ≤ 32767) ∧
    (-32768 ≤ (getXYZ T H d).1.2.1 ∧ (getXYZ T H d).1.2.1 ≤ 32767) ∧
    (-32768 ≤ (getXYZ T H d).1.2.2 ∧ (getXYZ T H d).1.2.2 ≤ 32767) :=
  ⟨toInt16_range _, toInt16_range _, toInt16_range _⟩

/-- C11 (as stated): the angular velocity is not the exact rational.  For the
axis value 1, `getAngularVelocity` returns the `float` `9336885 / 2^27`, which is
not `1 * 8 / 115`. -/
theorem getAngularVelocity_not_exact :
    (getXYZ streamBus sampleHeader (attach [burst 1 0 14375] 0 0 0)).1 = (1, 0, 14375) ∧
    (getAngularVelocity streamBus sampleHeader (attach [burst 1 0 14375] 0 0 0)).1.1 =
      9336885 / 2 ^ 27 ∧
    (getAngularVelocity streamBus sampleHeader (attach [burst 1 0 14375] 0 0 0)).1.1 ≠
      1 * 8 / 115 := by
  have h : (getXYZ streamBus sampleHeader (attach [burst 1 0 14375] 0 0 0)).1 =
      (1, 0, 14375) := by decide
  have g : (getAngularVelocity streamBus sampleHeader (attach [burst 1 0 14375] 0 0 0)).1.1 =
      9336885 / 2 ^ 27 := by
    simp only [getAngularVelocity]
    rw [h]
    have := roundDouble_one_axis
    simp only [Int.cast_one]
    rw [this, roundFloat_one_axis]
  refine ⟨h, g, ?_⟩
  rw [g]
  norm_num

/-- C11 (amended): `getAngularVelocity` returns, for each offset-corrected axis
value `x` of `getXYZ`, the `float` nearest to the `double` quotient `x / 14.375`.
For every axis value the result is within `2^-13 + 2^-42` of the exact rational
`x * 8 / 115`; an axis value of 14375 gives exactly 1000 and an axis value of 0
gives exactly 0. -/
theorem getAngularVelocity_accuracy (T : Transport σ) (H : Header) (d : Driver σ) :
    (getAngularVelocity T H d).1 =
      (roundFloat (roundDouble (((getXYZ T H d).1.1 : ℚ) / 14.375)),
       roundFloat (roundDouble (((getXYZ T H d).1.2.1 : ℚ) / 14.375)),
       roundFloat (roundDouble (((getXYZ T H d).1.2.2 : ℚ) / 14.375))) ∧
    |(getAngularVelocity T H d).1.1 - ((getXYZ T H d).1.1 : ℚ) * 8 / 115| ≤
      1 / 2 ^ 13 + 1 / 2 ^ 42 ∧
    |(getAngularVelocity T H d).1.2.1 - ((getXYZ T H d).1.2.1 : ℚ) * 8 / 115| ≤
      1 / 2 ^ 13 + 1 / 2 ^ 42 ∧
    |(getAngularVelocity T H d).1.2.2 - ((getXYZ T H d).1.2.2 : ℚ) * 8 / 115| ≤
      1 / 2 ^ 13 + 1 / 2 ^ 42 ∧
    ((getXYZ T H d).1.1 = 14375 → (getAngularVelocity T H d).1.1 = 1000) ∧
    ((getXYZ T H d).1.1 = 0 → (getAngularVelocity T H d).1.1 = 0) ∧
    ((getXYZ T H d).1.2.1 = 14375 → (getAngularVelocity T H d).1.2.1 = 1000) ∧
    ((getXYZ T H d).1.2.1 = 0 → (getAngularVelocity T H d).1.2.1 = 0) ∧
    ((getXYZ T H d).1.2.2 = 14375 → (getAngularVelocity T H d).1.2.2 = 1000) ∧
    ((getXYZ T H d).1.2.2 = 0 → (getAngularVelocity T H d).1.2.2 = 0) := by
  have r := getXYZ_range T H d
  refine ⟨rfl, velocity_error _ r.1.1 r.1.2, velocity_error _ r.2.1.1 r.2.1.2,
    velocity_error _ r.2.2.1 r.2.2.2, ?_, ?_, ?_, ?_, ?_, ?_⟩ <;>
  · intro h
    simp only [getAngularVelocity]
    rw [h]
    first
      | exact velocity_exact_1000
      | exact velocity_exact_zero

theorem getAngularVelocity_accuracy_witness :
    (getXYZ streamBus sampleHeader (attach [burst 14375 0 1] 0 0 0)).1 = (14375, 0, 1) ∧
    (getAngularVelocity streamBus sampleHeader (attach [burst 14375 0 1] 0 0 0)).1.1 = 1000 ∧
    (getAngularVelocity streamBus sampleHeader (attach [burst 14375 0 1] 0 0 0)).1.2.1 = 0 :=
  ⟨by decide,
   (getAngularVelocity_accuracy streamBus sampleHeader
      (attach [burst 14375 0 1] 0 0 0)).2.2.2.2.1 (by decide),
   (getAngularVelocity_accuracy streamBus sampleHeader
      (attach [burst 14375 0 1] 0 0 0)).2.2.2.2.2.2.2.1 (by decide)⟩

end ITG3200
